import Mathlib

/-!
# WebRTCDemo signaling hub (`src/server.js`)

A shallow embedding of the `WebRTCDemoServer` class.

* `this.rooms` and `this.clients` are JavaScript objects used as string-keyed
  maps; their own properties are embedded as association lists in insertion
  order (`lookup`, `assign`, `remove`).  A read `obj[k]` that finds no own
  property finds, for the names in `objectPrototypeKeys`, the built-in value
  inherited from `Object.prototype`: it is truthy and has none of the properties
  the server uses (`members`, `broadcaster`, `room`, `name`, `emit`).  The
  built-in objects are taken as they are at start; what a handler writes on one
  of them is not part of the hub.
* `this.clients[id]` is the socket object itself, so the registry entry for
  `id` carries the two properties the server stores on the socket (`room`,
  `name`); the socket id is the key.
* JavaScript truthiness of strings (`!s`, `!!s`) is `truthy`.
* A handler can throw (`ReferenceError`, `TypeError`); a handler returns an
  `Outcome` with the hub as it is when the handler stops, the notifications
  emitted up to then, and the error raised, if any.
* socket.io is an external library.  Its adapter (which socket is in which
  channel) is the `subs` component and its set of open sockets the `connected`
  component; `connection.join`, `connection.leave`, `connection.emit`,
  `io.to(room).emit` and `from.to(room).emit` are embedded after its documented
  behaviour.  A connecting socket is put in the channel named by its own id; a
  closing socket leaves every channel; a closed socket delivers nothing.

The second part embeds the two negotiation classes of the browser side,
`WebRTCBroadcaster` (`src/webrtc.broadcaster.js`) and `WebRTCViewer`
(`src/webrtc.viewer.js`).

* `this.emit(trigger, data)` of `EventEmitter` is recorded as a notification in
  the outcome of the method.
* `RTCPeerConnection` belongs to the browser.  A peer connection is a handle
  (its object identity) together with the message its listeners captured; what
  its asynchronous operations answer is a parameter of the method that awaits
  them, and the steps of such a method run against one state of the object.
* `this[viewers]` is a JavaScript array that the class uses with string keys;
  `JsArray` keeps its `length` apart from its other own properties, and a read
  that finds no own property finds `length` or a value inherited from
  `Array.prototype` or `Object.prototype`.
* For an `async` method, `raised` is the error the promise it returns is
  rejected with.
-/

namespace WebRTCDemo

/-! ## String-keyed maps -/

/-- Property read `obj[k]`: `none` is `undefined`. -/
def lookup {β : Type} (k : String) : List (String × β) → Option β
  | [] => none
  | (k', v) :: rest => if k' = k then some v else lookup k rest

/-- Property write `obj[k] = v`: overwrites in place, or appends a new key. -/
def assign {β : Type} (k : String) (v : β) : List (String × β) → List (String × β)
  | [] => [(k, v)]
  | (k', v') :: rest => if k' = k then (k', v) :: rest else (k', v') :: assign k v rest

/-- Property removal `delete obj[k]`. -/
def remove {β : Type} (k : String) : List (String × β) → List (String × β)
  | [] => []
  | (k', v') :: rest => if k' = k then remove k rest else (k', v') :: remove k rest

/-- JavaScript truthiness of a string: every string but the empty one. -/
def truthy (s : String) : Bool := s != ""

/-- JavaScript truthiness of a value that is a string, `undefined` or `false`. -/
def truthyOpt : Option String → Bool
  | none => false
  | some s => truthy s

/-- The property names every object inherits from `Object.prototype`. -/
def objectPrototypeKeys : List String :=
  ["constructor", "__defineGetter__", "__defineSetter__", "hasOwnProperty",
   "__lookupGetter__", "__lookupSetter__", "isPrototypeOf", "propertyIsEnumerable",
   "toString", "valueOf", "__proto__", "toLocaleString"]

/-- A read `obj[k]` on a plain object without own property `k` finds an
inherited built-in value. -/
def inheritedKey (k : String) : Bool := decide (k ∈ objectPrototypeKeys)

/-! ## Data model -/

/-- A room member `{ name, connection }`. -/
structure Member where
  name : String
  connection : String
  deriving DecidableEq, Repr

/-- A room `{ name, members, broadcaster }`; `broadcaster` is `false` (`none`)
or a connection id. -/
structure Room where
  name : String
  members : List Member
  broadcaster : Option String
  deriving DecidableEq, Repr

/-- The properties the server keeps on a registered socket. -/
structure Client where
  room : Option String
  name : Option String
  deriving DecidableEq, Repr

/-- Chat payload of the `message` event: `{ text, from, createdAt }`; `sender`
is the `from` property. -/
structure ChatData where
  text : String
  sender : Option String
  createdAt : Option Nat
  deriving DecidableEq, Repr

/-- The `data` part of a negotiation envelope. -/
structure NegotiationData where
  name : Option String
  target : Option String
  payload : String
  deriving DecidableEq, Repr

/-- Negotiation envelope `{ action, data }` of the `webrtc_message` event. -/
structure NegotiationMessage where
  action : String
  data : NegotiationData
  deriving DecidableEq, Repr

/-- Payload of an error notification: a bare string or `{ code, message }`. -/
inductive ErrorPayload
  | text (message : String)
  | coded (code : Nat) (message : String)
  deriving DecidableEq, Repr

/-- Notifications the hub emits. -/
inductive Notice
  | userJoin (name : String)
  | loggedIn
  | otherUsers (names : List String)
  | broadcastStarted (id : Option String)
  | userLeft (name : String)
  | broadcasterLeft
  | message (data : ChatData)
  | messageError (payload : ErrorPayload)
  | webrtc_message (m : NegotiationMessage)
  | webrtc_messageError (payload : ErrorPayload)
  | broadcasterConfirm
  deriving DecidableEq, Repr

/-- How an emission is addressed. -/
inductive Dest
  | socket (id : String)
  | room (name : String)
  | roomExcept (name : String) (sender : String)
  deriving DecidableEq, Repr

/-- One emitted notification, with the sockets that receive it. -/
structure Emission where
  dest : Dest
  receivers : List String
  notice : Notice
  deriving DecidableEq, Repr

/-- Errors a method can throw, or the promise of an `async` method be rejected
with; `transportError` is an error supplied by the peer connection. -/
inductive JsError
  | referenceError (identifier : String)
  | typeError
  | error (message : String)
  | rangeError
  | transportError
  deriving DecidableEq, Repr

/-- The hub: room registry, connection registry, socket.io channel
subscriptions as (socket id, channel) pairs, ids of the open sockets. -/
structure Hub where
  rooms : List (String × Room)
  clients : List (String × Client)
  subs : List (String × String)
  connected : List String
  deriving DecidableEq, Repr

/-- Result of running a handler. -/
structure Outcome where
  hub : Hub
  out : List Emission
  raised : Option JsError
  deriving DecidableEq, Repr

/-- The hub right after construction: `rooms = {}`, `clients = {}`. -/
def Hub.empty : Hub := ⟨[], [], [], []⟩

/-! ## socket.io primitives -/

/-- Sockets currently in channel `ch`, in subscription order.  In every state the
server reaches they are open sockets (`subsOpen_reach`). -/
def subscribers (ch : String) (subs : List (String × String)) : List String :=
  (subs.filter (fun p => p.2 = ch)).map (fun p => p.1)

/-- Adapter side of `connection.join(ch)`. -/
def sioJoin (id ch : String) (subs : List (String × String)) : List (String × String) :=
  if (id, ch) ∈ subs then subs else subs ++ [(id, ch)]

/-- Adapter side of `connection.leave(ch)`. -/
def sioLeave (id ch : String) (subs : List (String × String)) : List (String × String) :=
  subs.filter (fun p => ¬ (p = (id, ch)))

/-- Adapter side of a socket closing: it leaves every channel. -/
def sioLeaveAll (id : String) (subs : List (String × String)) : List (String × String) :=
  subs.filter (fun p => ¬ (p.1 = id))

/-- Emission made by `connection.emit(notice)` on the socket whose event is
being handled. -/
def emitSocket (id : String) (n : Notice) : Emission :=
  ⟨Dest.socket id, [id], n⟩

/-- Emission made by `emit(notice)` on a socket taken from the registry: it is
delivered when that socket is open. -/
def emitTarget (connected : List String) (id : String) (n : Notice) : Emission :=
  ⟨Dest.socket id, if id ∈ connected then [id] else [], n⟩

/-- Emission made by `io.to(ch).emit(notice)`. -/
def emitRoom (subs : List (String × String)) (ch : String) (n : Notice) : Emission :=
  ⟨Dest.room ch, subscribers ch subs, n⟩

/-- Emission made by `from.to(ch).emit(notice)`: the channel without the sender. -/
def emitRoomExcept (subs : List (String × String)) (ch sender : String) (n : Notice) : Emission :=
  ⟨Dest.roomExcept ch sender, (subscribers ch subs).filter (fun s => ¬ (s = sender)), n⟩

/-! ## Handlers of `WebRTCDemoServer` -/

/-- Handler `initializeConnect(connection)`. -/
def initializeConnect (id : String) (h : Hub) : Outcome :=
  match lookup id h.clients with
  | some _ => ⟨h, [], none⟩
  | none =>
    if inheritedKey id then ⟨h, [], none⟩
    else ⟨{ h with clients := assign id ⟨none, none⟩ h.clients }, [], none⟩

/-- Handler `addToRoom(roomName, connection, username)`.  For a room name that
reads an inherited value no room is created and `.members.push` throws. -/
def addToRoom (roomName id username : String) (h : Hub) : Outcome :=
  if !truthy roomName || !truthy username then ⟨h, [], none⟩
  else if (lookup roomName h.rooms).isNone && inheritedKey roomName then
    ⟨h, [], some JsError.typeError⟩
  else
    let room : Room :=
      match lookup roomName h.rooms with
      | some existing => existing
      | none => ⟨roomName, [], none⟩
    let member : Member := ⟨username, id⟩
    let room2 : Room := { room with members := room.members ++ [member] }
    let rooms2 := assign roomName room2 h.rooms
    let e1 := emitRoom h.subs roomName (Notice.userJoin member.name)
    let subs1 := sioJoin id roomName h.subs
    let e2 := emitSocket id Notice.loggedIn
    let e3 := emitSocket id (Notice.otherUsers (room2.members.map (fun m => m.name)))
    let e4 :=
      if truthyOpt room2.broadcaster
      then [emitSocket id (Notice.broadcastStarted room2.broadcaster)]
      else []
    match lookup id h.clients with
    | none =>
      if inheritedKey id then
        ⟨{ h with rooms := rooms2, subs := subs1 }, [e1, e2, e3] ++ e4, none⟩
      else ⟨{ h with rooms := rooms2, subs := subs1 }, [e1, e2, e3], some JsError.typeError⟩
    | some _ =>
      let clients1 := assign id ⟨some roomName, some username⟩ h.clients
      ⟨{ h with rooms := rooms2, clients := clients1, subs := subs1 }, [e1, e2, e3] ++ e4, none⟩

/-- Handler `removeFromRoom(roomName, connection)`.  For a room name that reads
an inherited value `.members.find` throws. -/
def removeFromRoom (roomName id : String) (h : Hub) : Outcome :=
  match lookup roomName h.rooms with
  | none => if inheritedKey roomName then ⟨h, [], some JsError.typeError⟩ else ⟨h, [], none⟩
  | some room =>
    match room.members.find? (fun m => m.connection = id) with
    | none => ⟨h, [], none⟩
    | some member =>
      let subs1 := sioLeave id roomName h.subs
      let e1 := emitRoom subs1 roomName (Notice.userLeft member.name)
      if room.members.length = 0 then
        ⟨{ h with subs := subs1 }, [e1], some (JsError.referenceError "rooms")⟩
      else
        let clearing := truthyOpt room.broadcaster && room.broadcaster = some id
        let rooms1 :=
          if clearing then assign roomName { room with broadcaster := none } h.rooms
          else h.rooms
        let e2 := if clearing then [emitRoom subs1 roomName Notice.broadcasterLeft] else []
        match lookup id h.clients with
        | none =>
          if inheritedKey id then ⟨{ h with rooms := rooms1, subs := subs1 }, [e1] ++ e2, none⟩
          else ⟨{ h with rooms := rooms1, subs := subs1 }, [e1] ++ e2, some JsError.typeError⟩
        | some client =>
          let clients1 := assign id { client with room := none } h.clients
          ⟨{ h with rooms := rooms1, clients := clients1, subs := subs1 }, [e1] ++ e2, none⟩

/-- Handler `connectionDisconnected(connection)`.  An inherited value read for
the id has no `room`, like no value at all. -/
def connectionDisconnected (id : String) (h : Hub) : Outcome :=
  match lookup id h.clients with
  | none => ⟨h, [], none⟩
  | some client =>
    match client.room with
    | none => ⟨h, [], none⟩
    | some room =>
      if !truthy room then ⟨h, [], none⟩
      else
        let o := removeFromRoom room id h
        match o.raised with
        | some _ => o
        | none => { o with hub := { o.hub with clients := remove id o.hub.clients } }

/-- Handler `transportMessage(data, connection)`; `now` is `new Date().valueOf()`.
The guard's `from` is not a binding of this function nor of the module. -/
def transportMessage (data : ChatData) (id : String) (now : Nat) (h : Hub) : Outcome :=
  let stop : Outcome := ⟨h, [], some (JsError.referenceError "from")⟩
  match lookup id h.clients with
  | none => stop
  | some client =>
    match client.room with
    | none => stop
    | some room =>
      if !truthy room then stop
      else
        let data1 : ChatData := { data with sender := client.name, createdAt := some now }
        ⟨h, [emitRoom h.subs room (Notice.message data1)], none⟩

/-- Handler `webRTCMessage(message, connection)`.  For a target that reads an
inherited value the guard passes and `.emit` throws. -/
def webRTCMessage (message : NegotiationMessage) (id : String) (h : Hub) : Outcome :=
  let notInRoom : Outcome :=
    ⟨h, [emitSocket id (Notice.webrtc_messageError
      (ErrorPayload.text "It doesn't seem that you are in a room"))], none⟩
  match lookup id h.clients with
  | none => notInRoom
  | some client =>
    if !truthyOpt client.room then notInRoom
    else
      match message.data.target with
      | none => ⟨h, [], none⟩
      | some target =>
        if !truthy target then ⟨h, [], none⟩
        else
          match lookup target h.clients with
          | some _ => ⟨h, [emitTarget h.connected target (Notice.webrtc_message message)], none⟩
          | none =>
            if inheritedKey target then ⟨h, [], some JsError.typeError⟩ else ⟨h, [], none⟩

/-- Handler `initializeBroadcaster(from)`.  When the client's room reads an
inherited value, its `broadcaster` is `undefined` and the assignment lands on
that built-in value. -/
def initializeBroadcaster (id : String) (h : Hub) : Outcome :=
  let notInRoom : Outcome :=
    ⟨h, [emitSocket id (Notice.webrtc_messageError
      (ErrorPayload.coded 201 "You cannot send messages unless you're logged in."))], none⟩
  match lookup id h.clients with
  | none => notInRoom
  | some client =>
    match client.room with
    | none => notInRoom
    | some roomName =>
      if !truthy roomName then notInRoom
      else
        match lookup roomName h.rooms with
        | none =>
          if inheritedKey roomName then
            ⟨h, [emitSocket id Notice.broadcasterConfirm,
              emitRoomExcept h.subs roomName id (Notice.broadcastStarted (some id))], none⟩
          else ⟨h, [], some JsError.typeError⟩
        | some room =>
          if truthyOpt room.broadcaster && !(room.broadcaster = some id) then
            ⟨h, [emitSocket id (Notice.webrtc_messageError
              (ErrorPayload.coded 202 "That room already has a broadcaster"))], none⟩
          else
            let rooms1 := assign roomName { room with broadcaster := some id } h.rooms
            ⟨{ h with rooms := rooms1 },
              [emitSocket id Notice.broadcasterConfirm,
               emitRoomExcept h.subs roomName id (Notice.broadcastStarted (some id))], none⟩

/-! ## Event dispatch -/

/-- An inbound socket event, with the id of the socket it arrives on. -/
inductive Event
  | connection (id : String)
  | disconnect (id : String)
  | joinRoom (id room name : String)
  | leaveRoom (id room : String)
  | message (id : String) (data : ChatData) (now : Nat)
  | webrtc_message (id : String) (m : NegotiationMessage)
  | claimBroadcaster (id : String)
  deriving DecidableEq, Repr

/-- What socket.io does for an opening socket before the `connection`
listener runs: the socket is open and in the channel named by its id. -/
def sioOpen (id : String) (h : Hub) : Hub :=
  { h with subs := sioJoin id id h.subs,
           connected := if id ∈ h.connected then h.connected else h.connected ++ [id] }

/-- What socket.io does for a closing socket before its `disconnect` listener
runs: the socket is closed and out of every channel. -/
def sioClose (id : String) (h : Hub) : Hub :=
  { h with subs := sioLeaveAll id h.subs,
           connected := h.connected.filter (fun s => ¬ (s = id)) }

/-- The per-socket listeners of `initializeConnect` run for a socket that is
open and that `initializeConnect` registered. -/
def Hub.listening (h : Hub) (id : String) : Bool :=
  decide (id ∈ h.connected) && (lookup id h.clients).isSome

/-- The listeners attached in `setupListeners` and `initializeConnect`. -/
def dispatch (ev : Event) (h : Hub) : Outcome :=
  match ev with
  | Event.connection id => initializeConnect id (sioOpen id h)
  | Event.disconnect id =>
    if h.listening id then connectionDisconnected id (sioClose id h)
    else ⟨sioClose id h, [], none⟩
  | Event.joinRoom id room name =>
    if h.listening id then addToRoom room id name h else ⟨h, [], none⟩
  | Event.leaveRoom id room =>
    if h.listening id then removeFromRoom room id h else ⟨h, [], none⟩
  | Event.message id data now =>
    if h.listening id then transportMessage data id now h else ⟨h, [], none⟩
  | Event.webrtc_message id m =>
    if h.listening id then webRTCMessage m id h else ⟨h, [], none⟩
  | Event.claimBroadcaster id =>
    if h.listening id then initializeBroadcaster id h else ⟨h, [], none⟩

/-- Handles the events in order; an uncaught error stops the server. -/
def run : List Event → Hub → Outcome
  | [], h => ⟨h, [], none⟩
  | ev :: rest, h =>
    let o := dispatch ev h
    match o.raised with
    | some _ => o
    | none =>
      let o2 := run rest o.hub
      ⟨o2.hub, o.out ++ o2.out, o2.raised⟩

/-! ## Vocabulary of the specification -/

/-- The holder of the broadcaster slot: a truthy `broadcaster` value. -/
def Room.holder (room : Room) : Option String :=
  if truthyOpt room.broadcaster then room.broadcaster else none

/-- The room a connection is in, as the handlers test it: it is registered and
its `room` property is truthy. -/
def Hub.currentRoom (h : Hub) (c : String) : Option String :=
  match lookup c h.clients with
  | some client => if truthyOpt client.room then client.room else none
  | none => none

/-- The test `addToRoom` makes before it touches the hub: room name and user
name are truthy, and the room name does not read an inherited value. -/
def joinAccepted (rn un : String) (h : Hub) : Bool :=
  truthy rn && truthy un && !((lookup rn h.rooms).isNone && inheritedKey rn)

/-- Every socket that is in a channel is open. -/
def Hub.SubsOpen (h : Hub) : Prop := ∀ p ∈ h.subs, p.1 ∈ h.connected

/-- The member list of room `r` (empty when there is no such room). -/
def Hub.membersOf (h : Hub) (r : String) : List Member :=
  match lookup r h.rooms with
  | some room => room.members
  | none => []

/-- The state the server is in after handling `evs` from its start. -/
def reach (evs : List Event) : Hub := (run evs Hub.empty).hub

/-- Every connection with a current room has a Member in that room. -/
def Hub.Consistent (h : Hub) : Prop :=
  ∀ c r, h.currentRoom c = some r → ∃ m ∈ h.membersOf r, m.connection = c

/-- The Members asked for by the `joinRoom` events for room `r`, in order. -/
def joinRequests (r : String) : List Event → List Member
  | [] => []
  | Event.joinRoom id room name :: rest =>
    if room = r then ⟨name, id⟩ :: joinRequests r rest else joinRequests r rest
  | _ :: rest => joinRequests r rest

/-- The rooms named by the `joinRoom` events of connection `c`, in order. -/
def roomsRequested (c : String) : List Event → List String
  | [] => []
  | Event.joinRoom id room _ :: rest =>
    if id = c then room :: roomsRequested c rest else roomsRequested c rest
  | _ :: rest => roomsRequested c rest

/-- Connection `c` has a Member in room `r`. -/
def Hub.isMember (h : Hub) (c r : String) : Prop :=
  ∃ m ∈ h.membersOf r, m.connection = c

/-- Connection `c` is in the member list of at most one room. -/
def Hub.inAtMostOneRoom (h : Hub) (c : String) : Prop :=
  ∀ r1 r2, h.isMember c r1 → h.isMember c r2 → r1 = r2

/-- No two Members of room `r` have the same connection id. -/
def Hub.uniqueMembers (h : Hub) (r : String) : Prop :=
  ((h.membersOf r).map (fun m => m.connection)).Nodup

/-- Consecutive calls `addToRoom(r, c, name)`, one per (connection id, name)
pair of the list: the outcome of each call, in order. -/
def joinEach (r : String) : List (String × String) → Hub → List Outcome
  | [], _ => []
  | (id, name) :: rest, h =>
    addToRoom r id name h :: joinEach r rest (addToRoom r id name h).hub

/-- The hub after the consecutive calls of `joinEach`. -/
def hubAfterJoins (r : String) : List (String × String) → Hub → Hub
  | [], h => h
  | (id, name) :: rest, h => hubAfterJoins r rest (addToRoom r id name h).hub

/-- The `userJoin` notifications among emissions. -/
def userJoins (out : List Emission) : List Emission :=
  out.filter (fun e => match e.notice with
    | Notice.userJoin _ => true
    | _ => false)

/-! ## Browser side: data model -/

/-- Value of a string of decimal digits, `none` when a character is no digit. -/
def digitsValue : List Char → Nat → Option Nat
  | [], acc => some acc
  | c :: cs, acc =>
    if 48 ≤ c.toNat ∧ c.toNat ≤ 57 then digitsValue cs (acc * 10 + (c.toNat - 48)) else none

/-- The array index a property key denotes: a canonical decimal numeral below
`2^32 - 1`; any other key is an ordinary property. -/
def arrayIndex (k : String) : Option Nat :=
  match k.data with
  | [] => none
  | c :: cs =>
    if c = '0' ∧ cs ≠ [] then none
    else
      match digitsValue (c :: cs) 0 with
      | some n => if n < 4294967295 then some n else none
      | none => none

/-- A JavaScript array: its `length` and its own properties. -/
structure JsArray (α : Type) where
  length : Nat
  props : List (String × α)
  deriving DecidableEq, Repr

/-- The array literal `[]`. -/
def JsArray.empty {α : Type} : JsArray α := ⟨0, []⟩

/-- The property names an array inherits from `Array.prototype` and
`Object.prototype`. -/
def arrayPrototypeKeys : List String :=
  ["at", "concat", "copyWithin", "entries", "every", "fill", "filter", "find", "findIndex",
   "findLast", "findLastIndex", "flat", "flatMap", "forEach", "includes", "indexOf", "join",
   "keys", "lastIndexOf", "map", "pop", "push", "reduce", "reduceRight", "reverse", "shift",
   "slice", "some", "sort", "splice", "toReversed", "toSorted", "toSpliced", "unshift",
   "values", "with"] ++ objectPrototypeKeys

/-- What a read `arr[k]` finds: an own property, or another value (the number
`length`, an inherited built-in value, `undefined`) of which only the
truthiness matters; such a value has none of the methods of a peer connection. -/
inductive Found (α : Type) where
  | own (v : α)
  | other (truthy : Bool)
  deriving DecidableEq, Repr

/-- Property read `arr[k]`. -/
def JsArray.read {α : Type} (arr : JsArray α) (k : String) : Found α :=
  match lookup k arr.props with
  | some v => Found.own v
  | none =>
    if k = "length" then Found.other (decide (arr.length ≠ 0))
    else Found.other (decide (k ∈ arrayPrototypeKeys))

/-- Property write `arr[k] = v` of an object `v`: `none` is the `RangeError` of
a write to `length`; a write to `__proto__` replaces the prototype and makes no
own property; only an index key can raise `length`. -/
def JsArray.set {α : Type} (arr : JsArray α) (k : String) (v : α) : Option (JsArray α) :=
  if k = "length" then none
  else if k = "__proto__" then some arr
  else
    match arrayIndex k with
    | some i => some ⟨max arr.length (i + 1), assign k v arr.props⟩
    | none => some ⟨arr.length, assign k v arr.props⟩

/-- Value passed as media source: a truthy value with its `constructor.name`
and the tracks `getTracks()` returns. -/
structure MediaSource where
  constructorName : String
  tracks : List String
  deriving DecidableEq, Repr

/-- Data of a negotiation message as the two classes read and build it. -/
structure Signal where
  target : Option String
  name : Option String
  sdp : Option String
  candidate : Option String
  deriving DecidableEq, Repr

/-- An `RTCPeerConnection`: its identity, the message captured by the listeners
attached to it, the tracks added to it. -/
structure PeerConnection where
  handle : Nat
  origin : Signal
  transceivers : List String
  deriving DecidableEq, Repr

/-- Property key made from a value that is a string or `undefined`. -/
def jsKey : Option String → String
  | some s => s
  | none => "undefined"

/-- State of a `WebRTCBroadcaster`. -/
structure Broadcaster where
  id : String
  broadcasting : Bool
  mediaStream : Option MediaSource
  viewers : JsArray PeerConnection
  deriving DecidableEq, Repr

/-- Notifications a broadcaster emits. -/
inductive BroadcasterNotice
  | broadcasting
  | halted
  | viewerConnected
  | viewerDisconnected
  | sendOffer (data : Signal)
  | iceCandidate (data : Signal)
  deriving DecidableEq, Repr

/-- Result of running a broadcaster method. -/
structure BroadcasterOutcome where
  broadcaster : Broadcaster
  out : List BroadcasterNotice
  raised : Option JsError
  deriving DecidableEq, Repr

/-- State of a `WebRTCViewer`. -/
structure Viewer where
  id : String
  watching : Option String
  broadcaster : Option PeerConnection
  mediaStream : Option MediaSource
  deriving DecidableEq, Repr

/-- Notifications a viewer emits. -/
inductive ViewerNotice
  | sendRequest (data : Signal)
  | sendAccept (data : Signal)
  | iceCandidate (data : Signal)
  | connected
  | disconnected
  | receivingMediaStream (stream : MediaSource)
  deriving DecidableEq, Repr

/-- Result of running a viewer method. -/
structure ViewerOutcome where
  viewer : Viewer
  out : List ViewerNotice
  raised : Option JsError
  deriving DecidableEq, Repr

/-- What the peer connection answers while `negotiationneeded` runs:
`createOffer()` resolves with an offer or rejects; `signalingState` is
`'stable'` or not; `setLocalDescription(offer)` resolves, leaving this
`localDescription`, or rejects. -/
structure OfferTransport where
  offer : Option String
  stable : Bool
  localDescription : Option String
  deriving DecidableEq, Repr

/-- What the browser answers while `receiveOffer` runs: `new
RTCSessionDescription(offer.sdp)` returns or throws; `setRemoteDescription`
resolves or rejects; `createAnswer()` resolves with an answer or rejects. -/
structure AnswerTransport where
  described : Bool
  remoteApplied : Bool
  answer : Option String
  deriving DecidableEq, Repr

/-! ## `WebRTCBroadcaster` -/

/-- The constructor of `WebRTCBroadcaster` with `config.id = id`. -/
def Broadcaster.new (id : String) : Broadcaster := ⟨id, false, none, JsArray.empty⟩

namespace Broadcaster

/-- Method `start(stream)`. -/
def start (stream : Option MediaSource) (b : Broadcaster) : BroadcasterOutcome :=
  let refuse : BroadcasterOutcome :=
    ⟨b, [], some (JsError.error "You must choose a video source before starting to broadcast.")⟩
  if b.broadcasting then ⟨b, [], none⟩
  else
    match stream with
    | none => refuse
    | some source =>
      if source.constructorName ≠ "MediaStream" then refuse
      else
        ⟨{ b with broadcasting := true, mediaStream := some source },
          [BroadcasterNotice.broadcasting], none⟩

/-- Method `stop()`. -/
def stop (b : Broadcaster) : BroadcasterOutcome :=
  if !b.broadcasting then ⟨b, [], none⟩
  else ⟨{ b with broadcasting := false, mediaStream := none }, [BroadcasterNotice.halted], none⟩

/-- Method `viewerRequest(request)`; `peer` is the identity of the
`RTCPeerConnection` it constructs. -/
def viewerRequest (request : Signal) (peer : Nat) (b : Broadcaster) : BroadcasterOutcome :=
  if !truthyOpt request.name then ⟨b, [], none⟩
  else
    let tracks : List String :=
      match b.mediaStream with
      | none => []
      | some source => source.tracks
    match b.viewers.set (jsKey request.name) ⟨peer, request, tracks⟩ with
    | none => ⟨b, [], some JsError.rangeError⟩
    | some viewers1 =>
      match b.mediaStream with
      | none => ⟨{ b with viewers := viewers1 }, [], some JsError.typeError⟩
      | some _ => ⟨{ b with viewers := viewers1 }, [], none⟩

/-- Method `iceconnectionstatechange(evt)`; `peer` is `evt.currentTarget`,
`state` its `iceConnectionState`. -/
def iceconnectionstatechange (peer : Nat) (state : String) (b : Broadcaster) :
    BroadcasterOutcome :=
  if state = "connected" then ⟨b, [BroadcasterNotice.viewerConnected], none⟩
  else if state = "disconnected" then
    ⟨{ b with viewers :=
        ⟨b.viewers.length, b.viewers.props.filter (fun p => ¬ (p.2.handle = peer))⟩ },
      [BroadcasterNotice.viewerDisconnected], none⟩
  else ⟨b, [], none⟩

/-- Method `negotiationneeded(evt, request)`, an `async` method.  A value read
from `viewers` that is no peer connection has no `createOffer`; a rejecting
`createOffer()` rejects the method; a rejecting `setLocalDescription` is caught. -/
def negotiationneeded (request : Signal) (t : OfferTransport) (b : Broadcaster) :
    BroadcasterOutcome :=
  match b.viewers.read (jsKey request.name) with
  | Found.other false => ⟨b, [], none⟩
  | Found.other true => ⟨b, [], some JsError.typeError⟩
  | Found.own _ =>
    match t.offer with
    | none => ⟨b, [], some JsError.transportError⟩
    | some _ =>
      if !t.stable then ⟨b, [], none⟩
      else
        match t.localDescription with
        | none => ⟨b, [], none⟩
        | some description =>
          ⟨b, [BroadcasterNotice.sendOffer ⟨request.name, some b.id, some description, none⟩], none⟩

/-- The sub-sessions the broadcaster holds: the peer connections stored in
`viewers`. -/
def subSessions (b : Broadcaster) : List (String × PeerConnection) := b.viewers.props

end Broadcaster

/-! ## `WebRTCViewer` -/

/-- The constructor of `WebRTCViewer` with `config.id = id`. -/
def Viewer.new (id : String) : Viewer := ⟨id, none, none, none⟩

namespace Viewer

/-- Method `watch(broadcasterId)`. -/
def watch (broadcasterId : String) (v : Viewer) : ViewerOutcome :=
  if truthyOpt v.watching then
    ⟨v, [], some (JsError.error "You must first leave the current room.")⟩
  else
    ⟨{ v with watching := some broadcasterId },
      [ViewerNotice.sendRequest ⟨some broadcasterId, some v.id, none, none⟩], none⟩

/-- Method `receiveOffer(offer)`; `peer` is the identity of the
`RTCPeerConnection` it constructs.  A rejection in the promise chain is caught. -/
def receiveOffer (offer : Signal) (peer : Nat) (t : AnswerTransport) (v : Viewer) :
    ViewerOutcome :=
  if offer.target ≠ some v.id then ⟨v, [], none⟩
  else
    let v1 : Viewer := { v with broadcaster := some ⟨peer, offer, []⟩ }
    if !t.described then ⟨v1, [], some JsError.typeError⟩
    else if !t.remoteApplied then ⟨v1, [], none⟩
    else
      match t.answer with
      | none => ⟨v1, [], none⟩
      | some answer =>
        ⟨v1, [ViewerNotice.sendAccept ⟨offer.name, some v.id, some answer, none⟩], none⟩

/-- Method `iceconnectionstatechange(evt)`; `state` is
`evt.currentTarget.iceConnectionState`. -/
def iceconnectionstatechange (state : String) (v : Viewer) : ViewerOutcome :=
  if state = "connected" then ⟨v, [ViewerNotice.connected], none⟩
  else if state = "disconnected" then ⟨v, [ViewerNotice.disconnected], none⟩
  else ⟨v, [], none⟩

end Viewer

/-! ## Lemmas on maps and truthiness -/

theorem truthy_iff (s : String) : truthy s = true ↔ s ≠ "" := by
  simp [truthy]

theorem lookup_assign_same {β : Type} (k : String) (v : β) (l : List (String × β)) :
    lookup k (assign k v l) = some v := by
  induction l with
  | nil => simp [assign, lookup]
  | cons p rest ih =>
    obtain ⟨k', v'⟩ := p
    by_cases hk : k' = k
    · simp [assign, lookup, hk]
    · simp [assign, lookup, hk, ih]

theorem lookup_assign_other {β : Type} (k k2 : String) (v : β) (l : List (String × β))
    (hne : k2 ≠ k) : lookup k2 (assign k v l) = lookup k2 l := by
  induction l with
  | nil =>
    have hne2 : ¬ k = k2 := fun e => hne e.symm
    simp [assign, lookup, hne2]
  | cons p rest ih =>
    obtain ⟨k', v'⟩ := p
    by_cases hk : k' = k
    · subst hk
      have hne2 : ¬ k' = k2 := fun e => hne e.symm
      simp [assign, lookup, hne2]
    · by_cases hk2 : k' = k2
      · subst hk2
        simp [assign, lookup, hk]
      · simp [assign, lookup, hk, hk2, ih]

theorem assign_assign_same {β : Type} (k : String) (v w : β) (l : List (String × β)) :
    assign k v (assign k w l) = assign k v l := by
  induction l with
  | nil => simp [assign]
  | cons p rest ih =>
    obtain ⟨k', v'⟩ := p
    by_cases hk : k' = k
    · simp [assign, hk]
    · simp [assign, hk, ih]

theorem currentRoom_eq_some {h : Hub} {c r : String} (hcur : h.currentRoom c = some r) :
    ∃ client, lookup c h.clients = some client ∧ client.room = some r ∧ truthy r = true := by
  unfold Hub.currentRoom at hcur
  cases hl : lookup c h.clients with
  | none => simp [hl] at hcur
  | some client =>
    simp only [hl] at hcur
    cases hroom : client.room with
    | none => simp [hroom, truthyOpt] at hcur
    | some r2 =>
      simp only [hroom, truthyOpt] at hcur
      by_cases ht : truthy r2 = true
      · simp only [ht, if_true, Option.some.injEq] at hcur
        subst hcur
        exact ⟨client, rfl, hroom, ht⟩
      · simp [ht] at hcur

theorem holder_eq_some {room : Room} {b : String} (hb : room.holder = some b) :
    room.broadcaster = some b ∧ truthy b = true := by
  unfold Room.holder at hb
  by_cases ht : truthyOpt room.broadcaster = true
  · simp only [ht, if_true] at hb
    rw [hb] at ht
    exact ⟨hb, by simpa [truthyOpt] using ht⟩
  · simp [ht] at hb

theorem holder_eq_none {room : Room} (hb : room.holder = none) :
    truthyOpt room.broadcaster = false := by
  unfold Room.holder at hb
  by_cases ht : truthyOpt room.broadcaster = true
  · simp only [ht, if_true] at hb
    rw [hb] at ht
    simp [truthyOpt] at ht
  · simpa using ht

theorem lookup_remove_same {β : Type} (k : String) (l : List (String × β)) :
    lookup k (remove k l) = none := by
  induction l with
  | nil => simp [remove, lookup]
  | cons p rest ih =>
    obtain ⟨k', v'⟩ := p
    by_cases hk : k' = k
    · simp [remove, hk, ih]
    · simp [remove, lookup, hk, ih]

theorem lookup_remove_other {β : Type} (k k2 : String) (l : List (String × β))
    (hne : k2 ≠ k) : lookup k2 (remove k l) = lookup k2 l := by
  induction l with
  | nil => simp [remove, lookup]
  | cons p rest ih =>
    obtain ⟨k', v'⟩ := p
    by_cases hk : k' = k
    · subst hk
      have hne2 : ¬ k' = k2 := fun e => hne e.symm
      simp [remove, lookup, hne2, ih]
    · by_cases hk2 : k' = k2
      · subst hk2
        simp [remove, lookup, hk]
      · simp [remove, lookup, hk, hk2, ih]

theorem currentRoom_of_lookup {h : Hub} {c r : String} {client : Client}
    (hc : lookup c h.clients = some client) (hr : client.room = some r)
    (ht : truthy r = true) : h.currentRoom c = some r := by
  simp [Hub.currentRoom, hc, hr, truthyOpt, ht]

theorem currentRoom_congr {h h2 : Hub} (c : String)
    (hc : lookup c h2.clients = lookup c h.clients) : h2.currentRoom c = h.currentRoom c := by
  simp [Hub.currentRoom, hc]

theorem membersOf_congr {h h2 : Hub} (r : String)
    (hr : lookup r h2.rooms = lookup r h.rooms) : h2.membersOf r = h.membersOf r := by
  simp [Hub.membersOf, hr]

theorem membersOf_assign (rooms : List (String × Room)) (k : String) (v : Room)
    (cl : List (String × Client)) (sb : List (String × String)) (cn : List String)
    (r : String) :
    Hub.membersOf ⟨assign k v rooms, cl, sb, cn⟩ r =
      if r = k then v.members else Hub.membersOf ⟨rooms, cl, sb, cn⟩ r := by
  by_cases hk : r = k
  · subst hk
    simp [Hub.membersOf, lookup_assign_same]
  · simp [Hub.membersOf, lookup_assign_other _ _ _ _ hk, hk]

/-! ## Effect of each handler on member lists -/

theorem joinAccepted_false {rn un : String} {h : Hub}
    (hg : (!truthy rn || !truthy un) = true
      ∨ ((lookup rn h.rooms).isNone && inheritedKey rn) = true) :
    joinAccepted rn un h = false := by
  unfold joinAccepted
  rcases hg with hg | hg
  · cases h1 : truthy rn <;> cases h2 : truthy un <;> simp [h1, h2] at hg ⊢
  · simp [hg]

theorem joinAccepted_true {rn un : String} {h : Hub}
    (hg : ¬ (!truthy rn || !truthy un) = true)
    (hi : ¬ ((lookup rn h.rooms).isNone && inheritedKey rn) = true) :
    joinAccepted rn un h = true := by
  unfold joinAccepted
  have hi2 : ((lookup rn h.rooms).isNone && inheritedKey rn) = false := by simpa using hi
  cases h1 : truthy rn <;> cases h2 : truthy un <;> simp [h1, h2, hi2] at hg ⊢

theorem membersOf_addToRoom (rn id un : String) (h : Hub) (r : String) :
    (addToRoom rn id un h).hub.membersOf r =
      if joinAccepted rn un h = true ∧ r = rn
      then h.membersOf rn ++ [⟨un, id⟩] else h.membersOf r := by
  unfold addToRoom
  by_cases hg : (!truthy rn || !truthy un) = true
  · rw [if_pos hg]
    simp [joinAccepted_false (Or.inl hg)]
  · rw [if_neg hg]
    by_cases hi : ((lookup rn h.rooms).isNone && inheritedKey rn) = true
    · rw [if_pos hi]
      simp [joinAccepted_false (Or.inr hi)]
    · rw [if_neg hi]
      have hacc := joinAccepted_true hg hi
      have hroom : (match lookup rn h.rooms with
          | some existing => existing
          | none => (⟨rn, [], none⟩ : Room)).members = h.membersOf rn := by
        unfold Hub.membersOf
        cases lookup rn h.rooms <;> rfl
      have key : ∀ (cl : List (String × Client)) (sb : List (String × String))
          (cn : List String) (nm : String) (bc : Option String),
          Hub.membersOf ⟨assign rn ⟨nm, h.membersOf rn ++ [⟨un, id⟩], bc⟩ h.rooms, cl, sb, cn⟩ r
            = if joinAccepted rn un h = true ∧ r = rn
              then h.membersOf rn ++ [⟨un, id⟩] else h.membersOf r := by
        intro cl sb cn nm bc
        rw [membersOf_assign]
        by_cases hk : r = rn
        · simp [hk, hacc]
        · simp [hk, Hub.membersOf]
      simp only []
      cases hc : lookup id h.clients with
      | none =>
        simp only [hroom]
        by_cases hid : inheritedKey id = true
        · rw [if_pos hid]
          exact key _ _ _ _ _
        · rw [if_neg hid]
          exact key _ _ _ _ _
      | some client =>
        simp only [hroom]
        exact key _ _ _ _ _

theorem removeFromRoom_shape (rn id : String) (h : Hub) :
    ∃ (rooms1 : List (String × Room)) (clients1 : List (String × Client))
      (subs1 : List (String × String)),
      (removeFromRoom rn id h).hub = ⟨rooms1, clients1, subs1, h.connected⟩
      ∧ (rooms1 = h.rooms ∨ ∃ room, lookup rn h.rooms = some room
          ∧ rooms1 = assign rn { room with broadcaster := none } h.rooms)
      ∧ (clients1 = h.clients ∨ ∃ client, lookup id h.clients = some client
          ∧ clients1 = assign id { client with room := none } h.clients) := by
  unfold removeFromRoom
  cases hroom : lookup rn h.rooms with
  | none =>
    simp only
    by_cases hi : inheritedKey rn = true
    · rw [if_pos hi]
      exact ⟨h.rooms, h.clients, h.subs, rfl, Or.inl rfl, Or.inl rfl⟩
    · rw [if_neg hi]
      exact ⟨h.rooms, h.clients, h.subs, rfl, Or.inl rfl, Or.inl rfl⟩
  | some room =>
    simp only
    cases hfind : room.members.find? (fun m => decide (m.connection = id)) with
    | none => exact ⟨h.rooms, h.clients, h.subs, rfl, Or.inl rfl, Or.inl rfl⟩
    | some member =>
      simp only
      by_cases hlen : room.members.length = 0
      · rw [if_pos hlen]
        exact ⟨h.rooms, h.clients, _, rfl, Or.inl rfl, Or.inl rfl⟩
      · rw [if_neg hlen]
        have hrooms : (if (truthyOpt room.broadcaster && decide (room.broadcaster = some id)) = true
            then assign rn { room with broadcaster := none } h.rooms else h.rooms) = h.rooms
            ∨ ∃ room2, some room = some room2
              ∧ (if (truthyOpt room.broadcaster && decide (room.broadcaster = some id)) = true
                then assign rn { room with broadcaster := none } h.rooms else h.rooms)
                = assign rn { room2 with broadcaster := none } h.rooms := by
          by_cases hcl : (truthyOpt room.broadcaster && decide (room.broadcaster = some id)) = true
          · rw [if_pos hcl]
            exact Or.inr ⟨room, rfl, rfl⟩
          · rw [if_neg hcl]
            exact Or.inl rfl
        cases hc : lookup id h.clients with
        | none =>
          simp only
          by_cases hi : inheritedKey id = true
          · rw [if_pos hi]
            exact ⟨_, _, _, rfl, hrooms, Or.inl rfl⟩
          · rw [if_neg hi]
            exact ⟨_, _, _, rfl, hrooms, Or.inl rfl⟩
        | some client =>
          exact ⟨_, _, _, rfl, hrooms, Or.inr ⟨client, rfl, rfl⟩⟩

theorem membersOf_removeFromRoom (rn id : String) (h : Hub) (r : String) :
    (removeFromRoom rn id h).hub.membersOf r = h.membersOf r := by
  obtain ⟨rooms1, clients1, subs1, hhub, hrooms, _⟩ := removeFromRoom_shape rn id h
  rw [hhub]
  rcases hrooms with hsame | ⟨room, hroom, hassign⟩
  · rw [hsame]
    rfl
  · rw [hassign, membersOf_assign]
    by_cases hk : r = rn
    · subst hk
      simp [Hub.membersOf, hroom]
    · simp [hk, Hub.membersOf]

theorem membersOf_connectionDisconnected (id : String) (h : Hub) (r : String) :
    (connectionDisconnected id h).hub.membersOf r = h.membersOf r := by
  unfold connectionDisconnected
  cases hc : lookup id h.clients with
  | none => rfl
  | some client =>
    simp only
    cases hr : client.room with
    | none => rfl
    | some room =>
      simp only
      by_cases ht : (!truthy room) = true
      · simp [ht]
      · rw [if_neg ht]
        cases hraised : (removeFromRoom room id h).raised with
        | some e => simpa [hraised] using membersOf_removeFromRoom room id h r
        | none =>
          simp only [hraised]
          have := membersOf_removeFromRoom room id h r
          simpa [Hub.membersOf] using this

theorem initializeBroadcaster_shape (id : String) (h : Hub) :
    (initializeBroadcaster id h).hub = h
      ∨ ∃ rn room, lookup rn h.rooms = some room
        ∧ (initializeBroadcaster id h).hub =
          { h with rooms := assign rn { room with broadcaster := some id } h.rooms } := by
  unfold initializeBroadcaster
  cases hc : lookup id h.clients with
  | none => exact Or.inl rfl
  | some client =>
    simp only
    cases hr : client.room with
    | none => exact Or.inl rfl
    | some rn =>
      simp only
      by_cases ht : (!truthy rn) = true
      · rw [if_pos ht]
        exact Or.inl rfl
      · rw [if_neg ht]
        cases hroom : lookup rn h.rooms with
        | none =>
          simp only
          by_cases hi : inheritedKey rn = true
          · rw [if_pos hi]
            exact Or.inl rfl
          · rw [if_neg hi]
            exact Or.inl rfl
        | some room =>
          simp only
          by_cases hg : (truthyOpt room.broadcaster && !decide (room.broadcaster = some id)) = true
          · rw [if_pos hg]
            exact Or.inl rfl
          · rw [if_neg hg]
            exact Or.inr ⟨rn, room, hroom, rfl⟩

theorem membersOf_initializeBroadcaster (id : String) (h : Hub) (r : String) :
    (initializeBroadcaster id h).hub.membersOf r = h.membersOf r := by
  rcases initializeBroadcaster_shape id h with hsame | ⟨rn, room, hroom, hhub⟩
  · rw [hsame]
  · rw [hhub]
    show Hub.membersOf ⟨assign rn { room with broadcaster := some id } h.rooms, h.clients,
      h.subs, h.connected⟩ r = h.membersOf r
    rw [membersOf_assign]
    by_cases hk : r = rn
    · subst hk
      simp [Hub.membersOf, hroom]
    · simp [hk, Hub.membersOf]

theorem initializeConnect_shape (id : String) (h : Hub) :
    (initializeConnect id h).hub = h
      ∨ (lookup id h.clients = none
        ∧ (initializeConnect id h).hub = { h with clients := assign id ⟨none, none⟩ h.clients }) := by
  cases hl : lookup id h.clients with
  | some client =>
    left
    simp [initializeConnect, hl]
  | none =>
    by_cases hi : inheritedKey id = true
    · left
      simp [initializeConnect, hl, hi]
    · right
      exact ⟨rfl, by simp [initializeConnect, hl, hi]⟩

theorem rooms_initializeConnect (id : String) (h : Hub) :
    (initializeConnect id h).hub.rooms = h.rooms := by
  rcases initializeConnect_shape id h with hsame | ⟨_, hhub⟩
  · rw [hsame]
  · rw [hhub]

theorem hub_transportMessage (data : ChatData) (id : String) (now : Nat) (h : Hub) :
    (transportMessage data id now h).hub = h := by
  unfold transportMessage
  cases lookup id h.clients with
  | none => rfl
  | some client =>
    simp only
    cases client.room with
    | none => rfl
    | some room =>
      simp only
      by_cases ht : (!truthy room) = true <;> simp [ht]

theorem hub_webRTCMessage (m : NegotiationMessage) (id : String) (h : Hub) :
    (webRTCMessage m id h).hub = h := by
  unfold webRTCMessage
  cases lookup id h.clients with
  | none => rfl
  | some client =>
    simp only
    by_cases hin : (!truthyOpt client.room) = true
    · simp [hin]
    · rw [if_neg hin]
      cases m.data.target with
      | none => rfl
      | some t =>
        simp only
        by_cases ht : (!truthy t) = true
        · rw [if_pos ht]
        · rw [if_neg ht]
          cases lookup t h.clients with
          | some cl => rfl
          | none =>
            simp only
            by_cases hi : inheritedKey t = true
            · rw [if_pos hi]
            · rw [if_neg hi]

/-! ## Effect of each handler on current rooms -/

theorem currentRoom_initializeConnect (id : String) (h : Hub) (c : String) :
    (initializeConnect id h).hub.currentRoom c = h.currentRoom c := by
  rcases initializeConnect_shape id h with hsame | ⟨hl, hhub⟩
  · rw [hsame]
  · rw [hhub]
    by_cases hk : c = id
    · subst hk
      simp [Hub.currentRoom, lookup_assign_same, hl, truthyOpt]
    · exact currentRoom_congr c (lookup_assign_other _ _ _ _ hk)

theorem currentRoom_assign_none (h : Hub) (rooms : List (String × Room))
    (sb : List (String × String)) (cn : List String) (id c r : String) (client : Client)
    (hcur : Hub.currentRoom ⟨rooms, assign id { client with room := none } h.clients, sb, cn⟩ c
      = some r) : h.currentRoom c = some r := by
  by_cases hk : c = id
  · subst hk
    simp [Hub.currentRoom, lookup_assign_same, truthyOpt] at hcur
  · rw [← hcur]
    exact (currentRoom_congr c (lookup_assign_other _ _ _ _ hk)).symm

theorem currentRoom_addToRoom (rn id un : String) (h : Hub) (c r : String)
    (hcur : (addToRoom rn id un h).hub.currentRoom c = some r) :
    (c = id ∧ r = rn ∧ joinAccepted rn un h = true) ∨ h.currentRoom c = some r := by
  unfold addToRoom at hcur
  by_cases hg : (!truthy rn || !truthy un) = true
  · rw [if_pos hg] at hcur
    exact Or.inr hcur
  · rw [if_neg hg] at hcur
    by_cases hi : ((lookup rn h.rooms).isNone && inheritedKey rn) = true
    · rw [if_pos hi] at hcur
      exact Or.inr hcur
    · rw [if_neg hi] at hcur
      have hacc := joinAccepted_true hg hi
      have ht : truthy rn = true := by
        cases h1 : truthy rn <;> simp [h1] at hg ⊢
      simp only [] at hcur
      cases hc : lookup id h.clients with
      | none =>
        simp only [hc] at hcur
        by_cases hid : inheritedKey id = true
        · rw [if_pos hid] at hcur
          exact Or.inr hcur
        · rw [if_neg hid] at hcur
          exact Or.inr hcur
      | some client =>
        simp only [hc] at hcur
        by_cases hk : c = id
        · subst hk
          left
          simp [Hub.currentRoom, lookup_assign_same, truthyOpt, ht] at hcur
          exact ⟨rfl, hcur.symm, hacc⟩
        · right
          rw [← hcur]
          exact (currentRoom_congr c (lookup_assign_other _ _ _ _ hk)).symm

theorem currentRoom_removeFromRoom (rn id : String) (h : Hub) (c r : String)
    (hcur : (removeFromRoom rn id h).hub.currentRoom c = some r) :
    h.currentRoom c = some r := by
  obtain ⟨rooms1, clients1, subs1, hhub, _, hclients⟩ := removeFromRoom_shape rn id h
  rw [hhub] at hcur
  rcases hclients with hsame | ⟨client, _, hassign⟩
  · rw [hsame] at hcur
    exact hcur
  · rw [hassign] at hcur
    exact currentRoom_assign_none h _ _ _ id c r client hcur

theorem currentRoom_remove (h : Hub) (id c r : String)
    (hcur : Hub.currentRoom { h with clients := remove id h.clients } c = some r) :
    h.currentRoom c = some r := by
  by_cases hk : c = id
  · subst hk
    simp [Hub.currentRoom, lookup_remove_same] at hcur
  · rw [← hcur]
    exact (currentRoom_congr c (lookup_remove_other _ _ _ hk)).symm

theorem currentRoom_connectionDisconnected (id : String) (h : Hub) (c r : String)
    (hcur : (connectionDisconnected id h).hub.currentRoom c = some r) :
    h.currentRoom c = some r := by
  unfold connectionDisconnected at hcur
  cases hc : lookup id h.clients with
  | none => simpa [hc] using hcur
  | some client =>
    simp only [hc] at hcur
    cases hr : client.room with
    | none => simpa [hr] using hcur
    | some room =>
      simp only [hr] at hcur
      by_cases ht : (!truthy room) = true
      · rw [if_pos ht] at hcur
        exact hcur
      · rw [if_neg ht] at hcur
        cases hraised : (removeFromRoom room id h).raised with
        | some e =>
          simp only [hraised] at hcur
          exact currentRoom_removeFromRoom room id h c r hcur
        | none =>
          simp only [hraised] at hcur
          exact currentRoom_removeFromRoom room id h c r (currentRoom_remove _ id c r hcur)

theorem clients_initializeBroadcaster (id : String) (h : Hub) :
    (initializeBroadcaster id h).hub.clients = h.clients := by
  rcases initializeBroadcaster_shape id h with hsame | ⟨rn, room, _, hhub⟩
  · rw [hsame]
  · rw [hhub]

/-! ## Event dispatch and runs -/

theorem membersOf_dispatch (ev : Event) (h : Hub) (r : String) :
    ∃ extra, (dispatch ev h).hub.membersOf r = h.membersOf r ++ extra
      ∧ extra.Sublist (joinRequests r [ev]) := by
  have same : ∀ o : Outcome, o.hub.membersOf r = h.membersOf r →
      ∃ extra, o.hub.membersOf r = h.membersOf r ++ extra
        ∧ extra.Sublist (joinRequests r [ev]) :=
    fun o ho => ⟨[], by simpa using ho, List.nil_sublist _⟩
  cases ev with
  | connection id =>
    exact same _ (membersOf_congr r (by rw [dispatch, rooms_initializeConnect]; rfl))
  | disconnect id =>
    apply same
    simp only [dispatch]
    by_cases hreg : h.listening id = true
    · rw [if_pos hreg, membersOf_connectionDisconnected]
      rfl
    · rw [if_neg hreg]
      rfl
  | joinRoom id room name =>
    simp only [dispatch]
    by_cases hreg : h.listening id = true
    · rw [if_pos hreg, membersOf_addToRoom]
      by_cases hcond : joinAccepted room name h = true ∧ r = room
      · rw [if_pos hcond]
        obtain ⟨_, hk⟩ := hcond
        subst hk
        exact ⟨[⟨name, id⟩], rfl, by simp [joinRequests]⟩
      · rw [if_neg hcond]
        exact ⟨[], by simp, List.nil_sublist _⟩
    · rw [if_neg hreg]
      exact ⟨[], by simp, List.nil_sublist _⟩
  | leaveRoom id room =>
    apply same
    simp only [dispatch]
    by_cases hreg : h.listening id = true
    · rw [if_pos hreg, membersOf_removeFromRoom]
    · rw [if_neg hreg]
  | message id data now =>
    apply same
    simp only [dispatch]
    by_cases hreg : h.listening id = true
    · rw [if_pos hreg, hub_transportMessage]
    · rw [if_neg hreg]
  | webrtc_message id m =>
    apply same
    simp only [dispatch]
    by_cases hreg : h.listening id = true
    · rw [if_pos hreg, hub_webRTCMessage]
    · rw [if_neg hreg]
  | claimBroadcaster id =>
    apply same
    simp only [dispatch]
    by_cases hreg : h.listening id = true
    · rw [if_pos hreg, membersOf_initializeBroadcaster]
    · rw [if_neg hreg]

theorem joinRequests_cons (r : String) (ev : Event) (rest : List Event) :
    joinRequests r (ev :: rest) = joinRequests r [ev] ++ joinRequests r rest := by
  cases ev with
  | joinRoom id room name =>
    by_cases hk : room = r <;> simp [joinRequests, hk]
  | _ => simp [joinRequests]

theorem roomsRequested_cons (c : String) (ev : Event) (rest : List Event) :
    roomsRequested c (ev :: rest) = roomsRequested c [ev] ++ roomsRequested c rest := by
  cases ev with
  | joinRoom id room name =>
    by_cases hk : id = c <;> simp [roomsRequested, hk]
  | _ => simp [roomsRequested]

theorem membersOf_run (evs : List Event) (h : Hub) (r : String) :
    ∃ extra, (run evs h).hub.membersOf r = h.membersOf r ++ extra
      ∧ extra.Sublist (joinRequests r evs) := by
  induction evs generalizing h with
  | nil => exact ⟨[], by simp [run], List.nil_sublist _⟩
  | cons ev rest ih =>
    obtain ⟨e1, hm1, hs1⟩ := membersOf_dispatch ev h r
    rw [joinRequests_cons]
    unfold run
    simp only
    cases hraised : (dispatch ev h).raised with
    | some e =>
      simp only
      exact ⟨e1, hm1, hs1.trans (List.sublist_append_left _ _)⟩
    | none =>
      simp only
      obtain ⟨e2, hm2, hs2⟩ := ih (dispatch ev h).hub
      refine ⟨e1 ++ e2, ?_, List.Sublist.append hs1 hs2⟩
      rw [hm2, hm1, List.append_assoc]

theorem membersOf_reach (evs : List Event) (r : String) :
    ((reach evs).membersOf r).Sublist (joinRequests r evs) := by
  obtain ⟨extra, hm, hs⟩ := membersOf_run evs Hub.empty r
  unfold reach
  rw [hm]
  simpa [Hub.membersOf, Hub.empty, lookup] using hs

theorem consistent_dispatch (ev : Event) (h : Hub) (hinv : h.Consistent) :
    (dispatch ev h).hub.Consistent := by
  intro c r hcur
  obtain ⟨extra, hm, _⟩ := membersOf_dispatch ev h r
  have keep : h.currentRoom c = some r → ∃ m ∈ (dispatch ev h).hub.membersOf r,
      m.connection = c := by
    intro hold
    obtain ⟨m, hmem, hconn⟩ := hinv c r hold
    exact ⟨m, by rw [hm]; exact List.mem_append_left _ hmem, hconn⟩
  cases ev with
  | connection id =>
    apply keep
    rw [← hcur, dispatch, currentRoom_initializeConnect]
    rfl
  | disconnect id =>
    apply keep
    simp only [dispatch] at hcur
    by_cases hreg : h.listening id = true
    · rw [if_pos hreg] at hcur
      exact currentRoom_connectionDisconnected id (sioClose id h) c r hcur
    · rw [if_neg hreg] at hcur
      exact hcur
  | joinRoom id room name =>
    by_cases hreg : h.listening id = true
    · have hd : dispatch (Event.joinRoom id room name) h = addToRoom room id name h := by
        simp only [dispatch]
        rw [if_pos hreg]
      rw [hd] at hcur
      rcases currentRoom_addToRoom room id name h c r hcur with ⟨hc, hr, hg⟩ | hold
      · subst hc hr
        refine ⟨⟨name, c⟩, ?_, rfl⟩
        rw [hd, membersOf_addToRoom, if_pos ⟨hg, rfl⟩]
        simp
      · exact keep hold
    · apply keep
      simp only [dispatch] at hcur
      rw [if_neg hreg] at hcur
      exact hcur
  | leaveRoom id room =>
    apply keep
    simp only [dispatch] at hcur
    by_cases hreg : h.listening id = true
    · rw [if_pos hreg] at hcur
      exact currentRoom_removeFromRoom room id h c r hcur
    · rw [if_neg hreg] at hcur
      exact hcur
  | message id data now =>
    apply keep
    simp only [dispatch] at hcur
    by_cases hreg : h.listening id = true
    · rw [if_pos hreg, hub_transportMessage] at hcur
      exact hcur
    · rw [if_neg hreg] at hcur
      exact hcur
  | webrtc_message id m =>
    apply keep
    simp only [dispatch] at hcur
    by_cases hreg : h.listening id = true
    · rw [if_pos hreg, hub_webRTCMessage] at hcur
      exact hcur
    · rw [if_neg hreg] at hcur
      exact hcur
  | claimBroadcaster id =>
    apply keep
    simp only [dispatch] at hcur
    by_cases hreg : h.listening id = true
    · rw [if_pos hreg] at hcur
      rw [← hcur]
      exact (currentRoom_congr c (by rw [clients_initializeBroadcaster])).symm
    · rw [if_neg hreg] at hcur
      exact hcur

theorem consistent_run (evs : List Event) (h : Hub) (hinv : h.Consistent) :
    (run evs h).hub.Consistent := by
  induction evs generalizing h with
  | nil => simpa [run] using hinv
  | cons ev rest ih =>
    unfold run
    simp only
    cases hraised : (dispatch ev h).raised with
    | some e => exact consistent_dispatch ev h hinv
    | none => exact ih _ (consistent_dispatch ev h hinv)

theorem consistent_reach (evs : List Event) : (reach evs).Consistent := by
  apply consistent_run
  intro c r hcur
  simp [Hub.currentRoom, Hub.empty, lookup] at hcur

theorem mem_joinRequests {r : String} {m : Member} {evs : List Event}
    (hm : m ∈ joinRequests r evs) : r ∈ roomsRequested m.connection evs := by
  induction evs with
  | nil => simp [joinRequests] at hm
  | cons ev rest ih =>
    rw [joinRequests_cons] at hm
    rw [roomsRequested_cons]
    rcases List.mem_append.1 hm with h1 | h2
    · apply List.mem_append_left
      cases ev with
      | joinRoom id room name =>
        by_cases hk : room = r
        · subst hk
          simp only [joinRequests, if_true, List.mem_singleton] at h1
          subst h1
          simp [roomsRequested]
        · simp [joinRequests, hk] at h1
      | _ => simp [joinRequests] at h1
    · exact List.mem_append_right _ (ih h2)

/-! ## Values of `initializeBroadcaster` and `connectionDisconnected` -/

theorem initializeBroadcaster_free (h : Hub) (c r : String) (room : Room)
    (hcur : h.currentRoom c = some r) (hroom : lookup r h.rooms = some room)
    (hguard : (truthyOpt room.broadcaster && !decide (room.broadcaster = some c)) = false) :
    initializeBroadcaster c h =
      ⟨{ h with rooms := assign r { room with broadcaster := some c } h.rooms },
       [emitSocket c Notice.broadcasterConfirm,
        emitRoomExcept h.subs r c (Notice.broadcastStarted (some c))], none⟩ := by
  obtain ⟨client, hc, hr, ht⟩ := currentRoom_eq_some hcur
  simp [initializeBroadcaster, hc, hr, ht, hroom, hguard]

theorem connectionDisconnected_holder (h : Hub) (b r : String) (room : Room)
    (hcur : h.currentRoom b = some r) (hroom : lookup r h.rooms = some room)
    (hheld : room.holder = some b) (hmem : ∃ m ∈ room.members, m.connection = b) :
    ∃ name client, lookup b h.clients = some client ∧ connectionDisconnected b h =
      ⟨⟨assign r { room with broadcaster := none } h.rooms,
        remove b (assign b { client with room := none } h.clients), sioLeave b r h.subs,
        h.connected⟩,
       [emitRoom (sioLeave b r h.subs) r (Notice.userLeft name),
        emitRoom (sioLeave b r h.subs) r Notice.broadcasterLeft], none⟩ := by
  obtain ⟨client, hc, hr, ht⟩ := currentRoom_eq_some hcur
  obtain ⟨hb, htb⟩ := holder_eq_some hheld
  obtain ⟨m, hm, hconn⟩ := hmem
  have hlen : ¬ room.members.length = 0 := by
    intro h0
    rw [List.length_eq_zero] at h0
    rw [h0] at hm
    simp at hm
  cases hfind : room.members.find? (fun m => decide (m.connection = b)) with
  | none =>
    rw [List.find?_eq_none] at hfind
    exact absurd hconn (by simpa using hfind m hm)
  | some member =>
    refine ⟨member.name, client, hc, ?_⟩
    have hrem : removeFromRoom r b h =
        ⟨⟨assign r { room with broadcaster := none } h.rooms,
          assign b { client with room := none } h.clients, sioLeave b r h.subs, h.connected⟩,
         [emitRoom (sioLeave b r h.subs) r (Notice.userLeft member.name),
          emitRoom (sioLeave b r h.subs) r Notice.broadcasterLeft], none⟩ := by
      simp [removeFromRoom, hroom, hfind, hlen, hb, truthyOpt, htb, hc]
    simp [connectionDisconnected, hc, hr, ht, hrem]

/-! ## One accepted `addToRoom` call -/

theorem mem_subscribers (id ch : String) (subs : List (String × String)) :
    id ∈ subscribers ch subs ↔ (id, ch) ∈ subs := by
  unfold subscribers
  constructor
  · intro hm
    obtain ⟨p, hp, hid⟩ := List.mem_map.1 hm
    obtain ⟨hps, hch⟩ := List.mem_filter.1 hp
    have hch2 : p.2 = ch := by simpa using hch
    have : p = (id, ch) := Prod.ext hid hch2
    rw [← this]
    exact hps
  · intro hm
    exact List.mem_map.2 ⟨(id, ch), List.mem_filter.2 ⟨hm, by simp⟩, rfl⟩

theorem subscribers_sioJoin (id ch : String) (subs : List (String × String))
    (hnot : id ∉ subscribers ch subs) :
    subscribers ch (sioJoin id ch subs) = subscribers ch subs ++ [id] := by
  have hnot2 : (id, ch) ∉ subs := fun hm => hnot ((mem_subscribers id ch subs).2 hm)
  simp [sioJoin, hnot2, subscribers, List.filter_append]

theorem addToRoom_accepted (r id name : String) (h : Hub) (client : Client)
    (hr : truthy r = true) (hi : inheritedKey r = false) (hn : truthy name = true)
    (hc : lookup id h.clients = some client) :
    (addToRoom r id name h).raised = none
      ∧ userJoins (addToRoom r id name h).out
          = [⟨Dest.room r, subscribers r h.subs, Notice.userJoin name⟩]
      ∧ (addToRoom r id name h).hub.subs = sioJoin id r h.subs
      ∧ (addToRoom r id name h).hub.clients = assign id ⟨some r, some name⟩ h.clients := by
  have hg : ¬ ((!truthy r || !truthy name) = true) := by simp [hr, hn]
  have hi2 : ¬ (((lookup r h.rooms).isNone && inheritedKey r) = true) := by simp [hi]
  unfold addToRoom
  rw [if_neg hg, if_neg hi2]
  simp only [hc, true_and, and_true]
  by_cases hb : truthyOpt (match lookup r h.rooms with
      | some existing => existing
      | none => (⟨r, [], none⟩ : Room)).broadcaster = true
  · rw [if_pos hb]
    simp [userJoins, emitRoom, emitSocket]
  · rw [if_neg hb]
    simp [userJoins, emitRoom, emitSocket]

theorem isSome_lookup_assign {β : Type} (k k2 : String) (v : β) (l : List (String × β))
    (hreg : (lookup k2 l).isSome = true) : (lookup k2 (assign k v l)).isSome = true := by
  by_cases hk : k2 = k
  · subst hk
    simp [lookup_assign_same]
  · rw [lookup_assign_other _ _ _ _ hk]
    exact hreg

theorem joins_from (r : String) (hr : truthy r = true) (hi : inheritedKey r = false)
    (js : List (String × String)) :
    ∀ h : Hub, (∀ j ∈ js, truthy j.2 = true) →
      (∀ j ∈ js, (lookup j.1 h.clients).isSome = true) →
      (js.map Prod.fst).Nodup → (∀ j ∈ js, j.1 ∉ subscribers r h.subs) →
      (hubAfterJoins r js h).membersOf r
          = h.membersOf r ++ js.map (fun j => (⟨j.2, j.1⟩ : Member))
        ∧ (joinEach r js h).length = js.length
        ∧ ∀ k id name o, js[k]? = some (id, name) → (joinEach r js h)[k]? = some o →
            o.raised = none
            ∧ userJoins o.out = [⟨Dest.room r,
                subscribers r h.subs ++ (js.take k).map Prod.fst, Notice.userJoin name⟩]
            ∧ id ∉ (js.take k).map Prod.fst := by
  induction js with
  | nil =>
    intro h _ _ _ _
    refine ⟨by simp [hubAfterJoins], by simp [joinEach], ?_⟩
    intro k id name o hk
    simp at hk
  | cons j rest ih =>
    obtain ⟨id0, name0⟩ := j
    intro h hnames hreg hnodup hfresh
    have hn0 : truthy name0 = true := hnames (id0, name0) (List.mem_cons_self _ _)
    have hreg0 : (lookup id0 h.clients).isSome = true :=
      hreg (id0, name0) (List.mem_cons_self _ _)
    obtain ⟨client, hc⟩ := Option.isSome_iff_exists.1 hreg0
    obtain ⟨hraised, huj, hsubs, hclients⟩ := addToRoom_accepted r id0 name0 h client hr hi hn0 hc
    have hfresh0 : id0 ∉ subscribers r h.subs := hfresh (id0, name0) (List.mem_cons_self _ _)
    have hnd : id0 ∉ rest.map Prod.fst ∧ (rest.map Prod.fst).Nodup := by
      simpa using hnodup
    have hmem1 : (addToRoom r id0 name0 h).hub.membersOf r = h.membersOf r ++ [⟨name0, id0⟩] := by
      rw [membersOf_addToRoom, if_pos ⟨by simp [joinAccepted, hr, hn0, hi], rfl⟩]
    have hsub1 : subscribers r (addToRoom r id0 name0 h).hub.subs
        = subscribers r h.subs ++ [id0] := by
      rw [hsubs, subscribers_sioJoin id0 r h.subs hfresh0]
    obtain ⟨ihm, ihl, ihk⟩ := ih (addToRoom r id0 name0 h).hub
      (fun j hj => hnames j (List.mem_cons_of_mem _ hj))
      (fun j hj => by
        rw [hclients]
        exact isSome_lookup_assign _ _ _ _ (hreg j (List.mem_cons_of_mem _ hj)))
      hnd.2
      (fun j hj => by
        rw [hsub1]
        intro hin
        rcases List.mem_append.1 hin with h1 | h2
        · exact hfresh j (List.mem_cons_of_mem _ hj) h1
        · have hje : j.1 = id0 := by simpa using h2
          exact hnd.1 (hje ▸ List.mem_map_of_mem Prod.fst hj))
    refine ⟨?_, by simp [joinEach, ihl], ?_⟩
    · simp only [hubAfterJoins]
      rw [ihm, hmem1]
      simp
    · intro k id name o hjk hok
      cases k with
      | zero =>
        simp only [List.getElem?_cons_zero, Option.some.injEq, Prod.mk.injEq] at hjk
        simp only [joinEach, List.getElem?_cons_zero, Option.some.injEq] at hok
        obtain ⟨hid, hname⟩ := hjk
        subst hid hname hok
        exact ⟨hraised, by simpa using huj, by simp⟩
      | succ k =>
        simp only [List.getElem?_cons_succ] at hjk
        simp only [joinEach, List.getElem?_cons_succ] at hok
        obtain ⟨h1, h2, h3⟩ := ihk k id name o hjk hok
        refine ⟨h1, ?_, ?_⟩
        · rw [h2, hsub1]
          simp
        · have hidrest : id ∈ rest.map Prod.fst :=
            List.mem_map.2 ⟨(id, name), List.getElem?_mem hjk, rfl⟩
          have hne : id ≠ id0 := fun e => hnd.1 (e ▸ hidrest)
          simp only [List.take_succ_cons, List.map_cons, List.mem_cons, not_or]
          exact ⟨hne, h3⟩

/-! ## Claims about `initializeBroadcaster` -/

/-- C1: when the current room of connection `c` has its broadcaster slot held
by a different connection `b`, `initializeBroadcaster` emits exactly one
notification, `webrtc_messageError` with code 202 to `c` (so neither
`broadcasterConfirm` nor `broadcastStarted`), raises nothing, and leaves the hub,
hence the slot holder `b`, as it was. -/
theorem initializeBroadcaster_conflict (h : Hub) (c b r : String) (room : Room)
    (hcur : h.currentRoom c = some r) (hroom : lookup r h.rooms = some room)
    (hheld : room.holder = some b) (hne : b ≠ c) :
    initializeBroadcaster c h =
        ⟨h, [emitSocket c (Notice.webrtc_messageError
          (ErrorPayload.coded 202 "That room already has a broadcaster"))], none⟩
      ∧ (∀ e ∈ (initializeBroadcaster c h).out,
          e.notice ≠ Notice.broadcasterConfirm ∧ ∀ x, e.notice ≠ Notice.broadcastStarted x)
      ∧ (lookup r (initializeBroadcaster c h).hub.rooms).map Room.holder = some (some b) := by
  obtain ⟨client, hc, hr, ht⟩ := currentRoom_eq_some hcur
  obtain ⟨hb, htb⟩ := holder_eq_some hheld
  have hval : initializeBroadcaster c h =
      ⟨h, [emitSocket c (Notice.webrtc_messageError
        (ErrorPayload.coded 202 "That room already has a broadcaster"))], none⟩ := by
    simp [initializeBroadcaster, hc, hr, ht, hroom, hb, truthyOpt, htb, hne]
  refine ⟨hval, ?_, ?_⟩
  · rw [hval]
    intro e he
    simp only [List.mem_singleton] at he
    subst he
    simp [emitSocket]
  · rw [hval]
    simp [hroom, hheld]

/-- Witness for C1: `c2` claims while `c1` holds the slot of room `r1`. -/
theorem initializeBroadcaster_conflict_witness :
    initializeBroadcaster "c2"
        ⟨[("r1", ⟨"r1", [⟨"alice", "c1"⟩, ⟨"bob", "c2"⟩], some "c1"⟩)],
         [("c1", ⟨some "r1", some "alice"⟩), ("c2", ⟨some "r1", some "bob"⟩)],
         [("c1", "r1"), ("c2", "r1")], ["c1", "c2"]⟩ =
      ⟨⟨[("r1", ⟨"r1", [⟨"alice", "c1"⟩, ⟨"bob", "c2"⟩], some "c1"⟩)],
         [("c1", ⟨some "r1", some "alice"⟩), ("c2", ⟨some "r1", some "bob"⟩)],
         [("c1", "r1"), ("c2", "r1")], ["c1", "c2"]⟩,
       [emitSocket "c2" (Notice.webrtc_messageError
          (ErrorPayload.coded 202 "That room already has a broadcaster"))], none⟩ :=
  (initializeBroadcaster_conflict
    ⟨[("r1", ⟨"r1", [⟨"alice", "c1"⟩, ⟨"bob", "c2"⟩], some "c1"⟩)],
     [("c1", ⟨some "r1", some "alice"⟩), ("c2", ⟨some "r1", some "bob"⟩)],
     [("c1", "r1"), ("c2", "r1")], ["c1", "c2"]⟩
    "c2" "c1" "r1" ⟨"r1", [⟨"alice", "c1"⟩, ⟨"bob", "c2"⟩], some "c1"⟩
    (by decide) (by decide) (by decide) (by decide)).1

/-- C10: when the current room of `c` has its broadcaster slot empty or held
by `c` itself, `initializeBroadcaster` sets the slot to `c`, emits
`broadcasterConfirm` to `c` and `broadcastStarted(c)` to the room (as a
broadcast from `c`), raises nothing; a second call by `c` succeeds with the
same notifications and leaves the hub exactly as the first call left it. -/
theorem initializeBroadcaster_claims (h : Hub) (c r : String) (room : Room)
    (hcur : h.currentRoom c = some r) (hroom : lookup r h.rooms = some room)
    (hfree : room.holder = none ∨ room.holder = some c) :
    initializeBroadcaster c h =
        ⟨{ h with rooms := assign r { room with broadcaster := some c } h.rooms },
         [emitSocket c Notice.broadcasterConfirm,
          emitRoomExcept h.subs r c (Notice.broadcastStarted (some c))], none⟩
      ∧ (lookup r (initializeBroadcaster c h).hub.rooms).map Room.broadcaster = some (some c)
      ∧ initializeBroadcaster c (initializeBroadcaster c h).hub =
        ⟨(initializeBroadcaster c h).hub,
         [emitSocket c Notice.broadcasterConfirm,
          emitRoomExcept h.subs r c (Notice.broadcastStarted (some c))], none⟩ := by
  obtain ⟨client, hc, hr, ht⟩ := currentRoom_eq_some hcur
  have hguard : (truthyOpt room.broadcaster && !decide (room.broadcaster = some c)) = false := by
    rcases hfree with hnone | hsome
    · simp [holder_eq_none hnone]
    · simp [(holder_eq_some hsome).1]
  have hval := initializeBroadcaster_free h c r room hcur hroom hguard
  refine ⟨hval, ?_, ?_⟩
  · rw [hval]
    simp [lookup_assign_same]
  · rw [hval]
    simp [initializeBroadcaster, hc, hr, ht, lookup_assign_same, assign_assign_same]

/-- Witness for C10: `c1` claims the empty slot of its room `r1`. -/
theorem initializeBroadcaster_claims_witness :
    (lookup "r1" (initializeBroadcaster "c1"
        ⟨[("r1", ⟨"r1", [⟨"alice", "c1"⟩], none⟩)], [("c1", ⟨some "r1", some "alice"⟩)],
         [("c1", "r1")], ["c1"]⟩).hub.rooms).map Room.broadcaster = some (some "c1") :=
  (initializeBroadcaster_claims
    ⟨[("r1", ⟨"r1", [⟨"alice", "c1"⟩], none⟩)], [("c1", ⟨some "r1", some "alice"⟩)],
     [("c1", "r1")], ["c1"]⟩
    "c1" "r1" ⟨"r1", [⟨"alice", "c1"⟩], none⟩ (by decide) (by decide)
    (Or.inl (by decide))).2.1

/-! ## Claims about `webRTCMessage` -/

/-- C3, counterexample: `c1` is in room `r1` and sends a message whose target is
`toString`.  No connection of that id is registered, yet the handler raises a
`TypeError`: the guard reads the inherited `toString` and `.emit` is called on it. -/
theorem webRTCMessage_inherited_target_counterexample :
    (run [Event.connection "c1", Event.joinRoom "c1" "r1" "alice"] Hub.empty).raised = none
      ∧ lookup "toString"
          (reach [Event.connection "c1", Event.joinRoom "c1" "r1" "alice"]).clients = none
      ∧ webRTCMessage ⟨"iceCandidate", ⟨some "c1", some "toString", ""⟩⟩ "c1"
          (reach [Event.connection "c1", Event.joinRoom "c1" "r1" "alice"]) =
        ⟨reach [Event.connection "c1", Event.joinRoom "c1" "r1" "alice"], [],
          some JsError.typeError⟩ := by
  decide

/-- C3, amended: for a negotiation message sent by a connection that is in a
room: when `data.target` is the (non-empty) id of a registered connection,
exactly one notification is emitted, `webrtc_message` carrying the message
unchanged, addressed to that connection, received by it when its socket is open
and by no other connection; when the target is absent, or is neither registered
nor a property name the registry inherits, nothing is emitted; in these cases
nothing is raised, and in every case the hub is unchanged. -/
theorem webRTCMessage_routes (h : Hub) (c r : String) (m : NegotiationMessage)
    (hcur : h.currentRoom c = some r) :
    (∀ t, m.data.target = some t → t ≠ "" → (lookup t h.clients).isSome = true →
        webRTCMessage m c h =
          ⟨h, [⟨Dest.socket t, if t ∈ h.connected then [t] else [], Notice.webrtc_message m⟩],
            none⟩)
      ∧ (m.data.target = none → webRTCMessage m c h = ⟨h, [], none⟩)
      ∧ (∀ t, m.data.target = some t → lookup t h.clients = none → inheritedKey t = false →
        webRTCMessage m c h = ⟨h, [], none⟩)
      ∧ (webRTCMessage m c h).hub = h := by
  obtain ⟨client, hc, hr, ht⟩ := currentRoom_eq_some hcur
  have hin : truthyOpt client.room = true := by simp [hr, truthyOpt, ht]
  refine ⟨?_, ?_, ?_, hub_webRTCMessage m c h⟩
  · intro t htar hne hreg
    have htt : truthy t = true := (truthy_iff t).2 hne
    obtain ⟨cl, hcl⟩ := Option.isSome_iff_exists.1 hreg
    simp [webRTCMessage, hc, hin, htar, htt, hcl, emitTarget]
  · intro htar
    simp [webRTCMessage, hc, hin, htar]
  · intro t htar hreg hi
    by_cases htt : truthy t = true
    · simp [webRTCMessage, hc, hin, htar, htt, hreg, hi]
    · simp [webRTCMessage, hc, hin, htar, htt]

/-- Witness for C3, amended: viewer `v1` in room `r1` sends a request targeting
`b1`, whose socket is open. -/
theorem webRTCMessage_routes_witness :
    webRTCMessage ⟨"viewerRequest", ⟨some "v1", some "b1", ""⟩⟩ "v1"
        ⟨[("r1", ⟨"r1", [⟨"bea", "b1"⟩, ⟨"vic", "v1"⟩], some "b1"⟩)],
         [("b1", ⟨some "r1", some "bea"⟩), ("v1", ⟨some "r1", some "vic"⟩)],
         [("b1", "b1"), ("v1", "v1"), ("b1", "r1"), ("v1", "r1")], ["b1", "v1"]⟩ =
      ⟨⟨[("r1", ⟨"r1", [⟨"bea", "b1"⟩, ⟨"vic", "v1"⟩], some "b1"⟩)],
         [("b1", ⟨some "r1", some "bea"⟩), ("v1", ⟨some "r1", some "vic"⟩)],
         [("b1", "b1"), ("v1", "v1"), ("b1", "r1"), ("v1", "r1")], ["b1", "v1"]⟩,
       [⟨Dest.socket "b1", if "b1" ∈ ["b1", "v1"] then ["b1"] else [],
          Notice.webrtc_message ⟨"viewerRequest", ⟨some "v1", some "b1", ""⟩⟩⟩], none⟩ :=
  (webRTCMessage_routes
    ⟨[("r1", ⟨"r1", [⟨"bea", "b1"⟩, ⟨"vic", "v1"⟩], some "b1"⟩)],
     [("b1", ⟨some "r1", some "bea"⟩), ("v1", ⟨some "r1", some "vic"⟩)],
     [("b1", "b1"), ("v1", "v1"), ("b1", "r1"), ("v1", "r1")], ["b1", "v1"]⟩
    "v1" "r1" ⟨"viewerRequest", ⟨some "v1", some "b1", ""⟩⟩ (by decide)).1
    "b1" rfl (by decide) (by decide)

/-! ## Evaluations of `removeFromRoom`, `connectionDisconnected`, `transportMessage` -/

/-- C4: after `alice` (connection `c1`) and `bob` (connection `c2`) joined room
`r1`, `removeFromRoom("r1", c1)` runs without error and emits `userLeft`, yet
the member list of `r1` is still `[alice, bob]`: the Member of `c1` stays. -/
theorem removeFromRoom_keeps_member :
    (run [Event.connection "c1", Event.connection "c2", Event.joinRoom "c1" "r1" "alice",
          Event.joinRoom "c2" "r1" "bob"] Hub.empty).raised = none
      ∧ (removeFromRoom "r1" "c1"
          (run [Event.connection "c1", Event.connection "c2", Event.joinRoom "c1" "r1" "alice",
            Event.joinRoom "c2" "r1" "bob"] Hub.empty).hub).raised = none
      ∧ (removeFromRoom "r1" "c1"
          (run [Event.connection "c1", Event.connection "c2", Event.joinRoom "c1" "r1" "alice",
            Event.joinRoom "c2" "r1" "bob"] Hub.empty).hub).out =
          [⟨Dest.room "r1", ["c2"], Notice.userLeft "alice"⟩]
      ∧ (removeFromRoom "r1" "c1"
          (run [Event.connection "c1", Event.connection "c2", Event.joinRoom "c1" "r1" "alice",
            Event.joinRoom "c2" "r1" "bob"] Hub.empty).hub).hub.membersOf "r1" =
          [⟨"alice", "c1"⟩, ⟨"bob", "c2"⟩] := by
  decide

/-- C6: connection `c1` is registered and has no room, `c2` is in room `r1`.
`connectionDisconnected(c1)` returns at its guard: the hub is unchanged and `c1`
is still in the registry.  So after the `disconnect` event of `c1` the registry
still holds `c1`, and a later `webRTCMessage` of `c2` targeting `c1` still calls
`emit` on that closed socket, which delivers to nobody. -/
theorem connectionDisconnected_keeps_roomless :
    (run [Event.connection "c1", Event.connection "c2", Event.joinRoom "c2" "r1" "bob"]
        Hub.empty).raised = none
      ∧ connectionDisconnected "c1"
          (run [Event.connection "c1", Event.connection "c2", Event.joinRoom "c2" "r1" "bob"]
            Hub.empty).hub =
        ⟨(run [Event.connection "c1", Event.connection "c2", Event.joinRoom "c2" "r1" "bob"]
            Hub.empty).hub, [], none⟩
      ∧ lookup "c1" (connectionDisconnected "c1"
          (run [Event.connection "c1", Event.connection "c2", Event.joinRoom "c2" "r1" "bob"]
            Hub.empty).hub).hub.clients = some ⟨none, none⟩
      ∧ (run [Event.connection "c1", Event.connection "c2", Event.joinRoom "c2" "r1" "bob",
          Event.disconnect "c1"] Hub.empty).raised = none
      ∧ lookup "c1" (reach [Event.connection "c1", Event.connection "c2",
          Event.joinRoom "c2" "r1" "bob", Event.disconnect "c1"]).clients = some ⟨none, none⟩
      ∧ (webRTCMessage ⟨"iceCandidate", ⟨some "c2", some "c1", ""⟩⟩ "c2"
          (reach [Event.connection "c1", Event.connection "c2",
            Event.joinRoom "c2" "r1" "bob", Event.disconnect "c1"])).out =
        [⟨Dest.socket "c1", [],
          Notice.webrtc_message ⟨"iceCandidate", ⟨some "c2", some "c1", ""⟩⟩⟩] := by
  decide

/-- C9: connection `c1` is registered and has no room.  `transportMessage`
raises `ReferenceError` for the identifier `from` at its guard: no `messageError`
(nor anything else) is emitted to `c1`. -/
theorem transportMessage_roomless_raises :
    (run [Event.connection "c1"] Hub.empty).raised = none
      ∧ transportMessage ⟨"hi", none, none⟩ "c1" 1000 (run [Event.connection "c1"] Hub.empty).hub =
        ⟨(run [Event.connection "c1"] Hub.empty).hub, [],
          some (JsError.referenceError "from")⟩ := by
  decide

/-! ## Claims about reachable hub states -/

/-- C5: in a hub state reached from the start, let room `r` have its
broadcaster slot held by `b` and let `r` be the current room of `b`.  Then
`connectionDisconnected(b)` raises nothing, clears the slot of `r` and emits
`broadcasterLeft` to the room; afterwards `initializeBroadcaster(c)`, for every
connection `c` whose current room is `r`, raises nothing, emits
`broadcasterConfirm` to `c` and no error notification, and sets the slot to `c`. -/
theorem disconnect_frees_broadcaster_slot (evs : List Event) (b r : String) (room : Room)
    (hroom : lookup r (reach evs).rooms = some room) (hheld : room.holder = some b)
    (hcur : (reach evs).currentRoom b = some r) :
    (connectionDisconnected b (reach evs)).raised = none
      ∧ (lookup r (connectionDisconnected b (reach evs)).hub.rooms).map Room.broadcaster
          = some none
      ∧ emitRoom (sioLeave b r (reach evs).subs) r Notice.broadcasterLeft
          ∈ (connectionDisconnected b (reach evs)).out
      ∧ ∀ c, (connectionDisconnected b (reach evs)).hub.currentRoom c = some r →
          (initializeBroadcaster c (connectionDisconnected b (reach evs)).hub).raised = none
          ∧ emitSocket c Notice.broadcasterConfirm
              ∈ (initializeBroadcaster c (connectionDisconnected b (reach evs)).hub).out
          ∧ (∀ e ∈ (initializeBroadcaster c (connectionDisconnected b (reach evs)).hub).out,
              ∀ p, e.notice ≠ Notice.webrtc_messageError p)
          ∧ (lookup r (initializeBroadcaster c
              (connectionDisconnected b (reach evs)).hub).hub.rooms).map Room.broadcaster
              = some (some c) := by
  have hmem : ∃ m ∈ room.members, m.connection = b := by
    have := consistent_reach evs b r hcur
    simpa [Hub.membersOf, hroom] using this
  obtain ⟨name, client, hc, hval⟩ :=
    connectionDisconnected_holder (reach evs) b r room hcur hroom hheld hmem
  rw [hval]
  refine ⟨rfl, by simp [lookup_assign_same], by simp, ?_⟩
  intro c hcurc
  have hfree := initializeBroadcaster_free _ c r { room with broadcaster := none } hcurc
    (lookup_assign_same _ _ _) (by simp [truthyOpt])
  rw [hfree]
  refine ⟨rfl, by simp, ?_, by simp [lookup_assign_same]⟩
  intro e he p
  simp only [List.mem_cons, List.mem_singleton, List.not_mem_nil, or_false] at he
  rcases he with he | he <;> subst he <;> simp [emitSocket, emitRoomExcept]

/-- Witness for C5: `c1` and `c2` are in room `r1`, `c1` holds the slot. -/
theorem disconnect_frees_broadcaster_slot_witness :
    (connectionDisconnected "c1" (reach [Event.connection "c1", Event.connection "c2",
        Event.joinRoom "c1" "r1" "alice", Event.joinRoom "c2" "r1" "bob",
        Event.claimBroadcaster "c1"])).raised = none :=
  (disconnect_frees_broadcaster_slot
    [Event.connection "c1", Event.connection "c2", Event.joinRoom "c1" "r1" "alice",
      Event.joinRoom "c2" "r1" "bob", Event.claimBroadcaster "c1"]
    "c1" "r1" ⟨"r1", [⟨"alice", "c1"⟩, ⟨"bob", "c2"⟩], some "c1"⟩
    (by decide) (by decide) (by decide)).1

/-- C7, counterexample: a connection that joins room `r1` and then room `r2`
has a Member in both member lists. -/
theorem join_second_room_counterexample :
    (run [Event.connection "c1", Event.joinRoom "c1" "r1" "alice",
        Event.joinRoom "c1" "r2" "alice"] Hub.empty).raised = none
      ∧ ¬ (reach [Event.connection "c1", Event.joinRoom "c1" "r1" "alice",
        Event.joinRoom "c1" "r2" "alice"]).inAtMostOneRoom "c1" := by
  refine ⟨by decide, ?_⟩
  intro hone
  have h12 : "r1" = "r2" :=
    hone "r1" "r2" ⟨⟨"alice", "c1"⟩, by decide, rfl⟩ ⟨⟨"alice", "c1"⟩, by decide, rfl⟩
  exact absurd h12 (by decide)

/-- C7, amended: in every hub state reached from the start by any sequence of
events, a connection whose `joinRoom` events all name one and the same room is
in the member list of at most one room. -/
theorem inAtMostOneRoom_of_one_room_requested (evs : List Event) (c : String)
    (hsame : ∀ r1 ∈ roomsRequested c evs, ∀ r2 ∈ roomsRequested c evs, r1 = r2) :
    (reach evs).inAtMostOneRoom c := by
  intro r1 r2 h1 h2
  obtain ⟨m1, hm1, hc1⟩ := h1
  obtain ⟨m2, hm2, hc2⟩ := h2
  have hr1 := mem_joinRequests ((membersOf_reach evs r1).subset hm1)
  have hr2 := mem_joinRequests ((membersOf_reach evs r2).subset hm2)
  rw [hc1] at hr1
  rw [hc2] at hr2
  exact hsame r1 hr1 r2 hr2

/-- Witness for C7, amended: `c1` joins room `r1` twice, `c2` joins room `r2`. -/
theorem inAtMostOneRoom_of_one_room_requested_witness :
    (reach [Event.connection "c1", Event.connection "c2", Event.joinRoom "c1" "r1" "alice",
      Event.joinRoom "c2" "r2" "bob", Event.joinRoom "c1" "r1" "alice"]).inAtMostOneRoom "c1" :=
  inAtMostOneRoom_of_one_room_requested
    [Event.connection "c1", Event.connection "c2", Event.joinRoom "c1" "r1" "alice",
      Event.joinRoom "c2" "r2" "bob", Event.joinRoom "c1" "r1" "alice"] "c1" (by decide)

/-- C8, counterexample: a connection that sends `joinRoom` for room `r1` twice
has two Members in the member list of `r1`. -/
theorem join_same_room_twice_counterexample :
    (run [Event.connection "c1", Event.joinRoom "c1" "r1" "alice",
        Event.joinRoom "c1" "r1" "alice"] Hub.empty).raised = none
      ∧ ¬ (reach [Event.connection "c1", Event.joinRoom "c1" "r1" "alice",
        Event.joinRoom "c1" "r1" "alice"]).uniqueMembers "r1" := by
  refine ⟨by decide, ?_⟩
  unfold Hub.uniqueMembers
  decide

/-- C8, amended: in every hub state reached from the start by any sequence of
events, the member list of a room holds no two Members with the same connection
id, provided no connection sent `joinRoom` for that room more than once. -/
theorem uniqueMembers_of_distinct_joins (evs : List Event) (r : String)
    (hd : ((joinRequests r evs).map (fun m => m.connection)).Nodup) :
    (reach evs).uniqueMembers r :=
  List.Nodup.sublist ((membersOf_reach evs r).map _) hd

/-- Witness for C8, amended: `c1` and `c2` each join room `r1` once. -/
theorem uniqueMembers_of_distinct_joins_witness :
    (reach [Event.connection "c1", Event.connection "c2", Event.joinRoom "c1" "r1" "alice",
      Event.joinRoom "c2" "r1" "bob"]).uniqueMembers "r1" :=
  uniqueMembers_of_distinct_joins
    [Event.connection "c1", Event.connection "c2", Event.joinRoom "c1" "r1" "alice",
      Event.joinRoom "c2" "r1" "bob"] "r1" (by decide)

/-! ## Claim about consecutive joins -/

/-- C2, counterexample: registered connection `c1` joins the room named
`constructor` with name `alice`.  The guard reads the inherited `constructor`,
no room is created and `.members.push` raises a `TypeError`: the room has no
member list with `alice` in it.  And when `c1` joins the room named `c2`, the
id of an open socket that joined no room, `userJoin` is received by `c2`. -/
theorem join_inherited_room_name_counterexample :
    (run [Event.connection "c1", Event.connection "c2"] Hub.empty).raised = none
      ∧ addToRoom "constructor" "c1" "alice"
          (reach [Event.connection "c1", Event.connection "c2"]) =
        ⟨reach [Event.connection "c1", Event.connection "c2"], [], some JsError.typeError⟩
      ∧ (hubAfterJoins "constructor" [("c1", "alice")]
          (reach [Event.connection "c1", Event.connection "c2"])).membersOf "constructor" = []
      ∧ userJoins (addToRoom "c2" "c1" "alice"
          (reach [Event.connection "c1", Event.connection "c2"])).out =
        [⟨Dest.room "c2", ["c2"], Notice.userJoin "alice"⟩] := by
  decide

/-- C2, amended: let distinct registered connections with open sockets join one
room `r`, each with a non-empty name, by consecutive `addToRoom` calls, where `r`
is non-empty and no property name the registry inherits, starting from a hub
where `r` does not exist yet and no socket is in the channel `r`.  Afterwards the member list
of `r` is exactly the joiners in join order; every call raises nothing, and its
one `userJoin` notification carries the joiner's name and is received by exactly
the connections that joined earlier, the joiner not among them. -/
theorem joins_in_order (r : String) (js : List (String × String)) (h : Hub)
    (hr : r ≠ "") (hown : inheritedKey r = false) (hnames : ∀ j ∈ js, j.2 ≠ "")
    (hreg : ∀ j ∈ js, h.listening j.1 = true)
    (hdistinct : (js.map Prod.fst).Nodup)
    (hnew : lookup r h.rooms = none) (hquiet : subscribers r h.subs = []) :
    (hubAfterJoins r js h).membersOf r = js.map (fun j => (⟨j.2, j.1⟩ : Member))
      ∧ (joinEach r js h).length = js.length
      ∧ ∀ k id name o, js[k]? = some (id, name) → (joinEach r js h)[k]? = some o →
          o.raised = none
          ∧ userJoins o.out
              = [⟨Dest.room r, (js.take k).map Prod.fst, Notice.userJoin name⟩]
          ∧ id ∉ (js.take k).map Prod.fst := by
  have hmain := joins_from r ((truthy_iff r).2 hr) hown js h
    (fun j hj => (truthy_iff j.2).2 (hnames j hj))
    (fun j hj => by
      have hl := hreg j hj
      simp only [Hub.listening, Bool.and_eq_true] at hl
      exact hl.2)
    hdistinct (fun j _ => by simp [hquiet])
  have hempty : h.membersOf r = [] := by simp [Hub.membersOf, hnew]
  rw [hempty, hquiet] at hmain
  simpa using hmain

/-- Witness for C2, amended: `alice` (`c1`) then `bob` (`c2`) join room `r1`. -/
theorem joins_in_order_witness :
    (hubAfterJoins "r1" [("c1", "alice"), ("c2", "bob")]
        (reach [Event.connection "c1", Event.connection "c2"])).membersOf "r1"
      = [⟨"alice", "c1"⟩, ⟨"bob", "c2"⟩] :=
  (joins_in_order "r1" [("c1", "alice"), ("c2", "bob")]
    (reach [Event.connection "c1", Event.connection "c2"])
    (by decide) (by decide) (by decide) (by decide) (by decide) (by decide) (by decide)).1

/-! ## Only open sockets are in channels -/

theorem subs_addToRoom (rn id un : String) (h : Hub) :
    (addToRoom rn id un h).hub.connected = h.connected
      ∧ ((addToRoom rn id un h).hub.subs = h.subs
        ∨ (addToRoom rn id un h).hub.subs = sioJoin id rn h.subs) := by
  unfold addToRoom
  by_cases hg : (!truthy rn || !truthy un) = true
  · rw [if_pos hg]
    exact ⟨rfl, Or.inl rfl⟩
  · rw [if_neg hg]
    by_cases hi : ((lookup rn h.rooms).isNone && inheritedKey rn) = true
    · rw [if_pos hi]
      exact ⟨rfl, Or.inl rfl⟩
    · rw [if_neg hi]
      simp only []
      cases hc : lookup id h.clients with
      | none =>
        simp only
        by_cases hid : inheritedKey id = true
        · rw [if_pos hid]
          exact ⟨rfl, Or.inr rfl⟩
        · rw [if_neg hid]
          exact ⟨rfl, Or.inr rfl⟩
      | some client => exact ⟨rfl, Or.inr rfl⟩

theorem subs_removeFromRoom (rn id : String) (h : Hub) :
    (removeFromRoom rn id h).hub.connected = h.connected
      ∧ ∀ p ∈ (removeFromRoom rn id h).hub.subs, p ∈ h.subs := by
  have hleave : ∀ p ∈ sioLeave id rn h.subs, p ∈ h.subs :=
    fun p hp => (List.mem_filter.1 hp).1
  unfold removeFromRoom
  cases hroom : lookup rn h.rooms with
  | none =>
    simp only
    by_cases hi : inheritedKey rn = true
    · rw [if_pos hi]
      exact ⟨rfl, fun p hp => hp⟩
    · rw [if_neg hi]
      exact ⟨rfl, fun p hp => hp⟩
  | some room =>
    simp only
    cases hfind : room.members.find? (fun m => decide (m.connection = id)) with
    | none => exact ⟨rfl, fun p hp => hp⟩
    | some member =>
      simp only
      by_cases hlen : room.members.length = 0
      · rw [if_pos hlen]
        exact ⟨rfl, hleave⟩
      · rw [if_neg hlen]
        cases hc : lookup id h.clients with
        | none =>
          simp only
          by_cases hid : inheritedKey id = true
          · rw [if_pos hid]
            exact ⟨rfl, hleave⟩
          · rw [if_neg hid]
            exact ⟨rfl, hleave⟩
        | some client => exact ⟨rfl, hleave⟩

theorem subs_connectionDisconnected (id : String) (h : Hub) :
    (connectionDisconnected id h).hub.connected = h.connected
      ∧ ∀ p ∈ (connectionDisconnected id h).hub.subs, p ∈ h.subs := by
  unfold connectionDisconnected
  cases hc : lookup id h.clients with
  | none => exact ⟨rfl, fun p hp => hp⟩
  | some client =>
    simp only
    cases hroom : client.room with
    | none => exact ⟨rfl, fun p hp => hp⟩
    | some room =>
      simp only
      by_cases ht : (!truthy room) = true
      · rw [if_pos ht]
        exact ⟨rfl, fun p hp => hp⟩
      · rw [if_neg ht]
        cases hraised : (removeFromRoom room id h).raised with
        | some e => exact subs_removeFromRoom room id h
        | none => exact subs_removeFromRoom room id h

theorem subsOpen_dispatch (ev : Event) (h : Hub) (hinv : h.SubsOpen) :
    (dispatch ev h).hub.SubsOpen := by
  have hclose : ∀ id, (sioClose id h).SubsOpen := by
    intro id p hp
    obtain ⟨hps, hne⟩ := List.mem_filter.1 hp
    exact List.mem_filter.2 ⟨hinv p hps, hne⟩
  cases ev with
  | connection id =>
    have hopen : (sioOpen id h).SubsOpen := by
      intro p hp
      have hsub : p ∈ h.subs ∨ p = (id, id) := by
        simp only [sioOpen, sioJoin] at hp
        by_cases hin : (id, id) ∈ h.subs
        · rw [if_pos hin] at hp
          exact Or.inl hp
        · rw [if_neg hin] at hp
          rcases List.mem_append.1 hp with h1 | h2
          · exact Or.inl h1
          · exact Or.inr (by simpa using h2)
      simp only [sioOpen]
      by_cases hc : id ∈ h.connected
      · rw [if_pos hc]
        rcases hsub with h1 | h2
        · exact hinv p h1
        · rw [h2]
          exact hc
      · rw [if_neg hc]
        rcases hsub with h1 | h2
        · exact List.mem_append_left _ (hinv p h1)
        · rw [h2]
          simp
    simp only [dispatch]
    rcases initializeConnect_shape id (sioOpen id h) with hsame | ⟨_, hhub⟩
    · rw [hsame]
      exact hopen
    · rw [hhub]
      exact hopen
  | disconnect id =>
    simp only [dispatch]
    by_cases hreg : h.listening id = true
    · rw [if_pos hreg]
      obtain ⟨hcn, hsb⟩ := subs_connectionDisconnected id (sioClose id h)
      intro p hp
      rw [hcn]
      exact hclose id p (hsb p hp)
    · rw [if_neg hreg]
      exact hclose id
  | joinRoom id room name =>
    simp only [dispatch]
    by_cases hreg : h.listening id = true
    · rw [if_pos hreg]
      have hopen : id ∈ h.connected := by
        simp only [Hub.listening, Bool.and_eq_true, decide_eq_true_eq] at hreg
        exact hreg.1
      obtain ⟨hcn, hsb⟩ := subs_addToRoom room id name h
      intro p hp
      rw [hcn]
      rcases hsb with hsame | hjoin
      · rw [hsame] at hp
        exact hinv p hp
      · rw [hjoin] at hp
        simp only [sioJoin] at hp
        by_cases hin : (id, room) ∈ h.subs
        · rw [if_pos hin] at hp
          exact hinv p hp
        · rw [if_neg hin] at hp
          rcases List.mem_append.1 hp with h1 | h2
          · exact hinv p h1
          · have hpe : p = (id, room) := by simpa using h2
            rw [hpe]
            exact hopen
    · rw [if_neg hreg]
      exact hinv
  | leaveRoom id room =>
    simp only [dispatch]
    by_cases hreg : h.listening id = true
    · rw [if_pos hreg]
      obtain ⟨hcn, hsb⟩ := subs_removeFromRoom room id h
      intro p hp
      rw [hcn]
      exact hinv p (hsb p hp)
    · rw [if_neg hreg]
      exact hinv
  | message id data now =>
    simp only [dispatch]
    by_cases hreg : h.listening id = true
    · rw [if_pos hreg, hub_transportMessage]
      exact hinv
    · rw [if_neg hreg]
      exact hinv
  | webrtc_message id m =>
    simp only [dispatch]
    by_cases hreg : h.listening id = true
    · rw [if_pos hreg, hub_webRTCMessage]
      exact hinv
    · rw [if_neg hreg]
      exact hinv
  | claimBroadcaster id =>
    simp only [dispatch]
    by_cases hreg : h.listening id = true
    · rw [if_pos hreg]
      rcases initializeBroadcaster_shape id h with hsame | ⟨rn, room, _, hhub⟩
      · rw [hsame]
        exact hinv
      · rw [hhub]
        exact hinv
    · rw [if_neg hreg]
      exact hinv

theorem subsOpen_run (evs : List Event) (h : Hub) (hinv : h.SubsOpen) :
    (run evs h).hub.SubsOpen := by
  induction evs generalizing h with
  | nil => simpa [run] using hinv
  | cons ev rest ih =>
    unfold run
    simp only
    cases hraised : (dispatch ev h).raised with
    | some e => exact subsOpen_dispatch ev h hinv
    | none => exact ih _ (subsOpen_dispatch ev h hinv)

theorem subsOpen_reach (evs : List Event) : (reach evs).SubsOpen := by
  apply subsOpen_run
  intro p hp
  simp [Hub.empty] at hp

/-! ## Rooms stay in the registry -/

theorem roomKept_addToRoom (rn id un : String) (h : Hub) (r : String)
    (hr : (lookup r h.rooms).isSome = true) :
    (lookup r (addToRoom rn id un h).hub.rooms).isSome = true := by
  unfold addToRoom
  by_cases hg : (!truthy rn || !truthy un) = true
  · rw [if_pos hg]
    exact hr
  · rw [if_neg hg]
    by_cases hi : ((lookup rn h.rooms).isNone && inheritedKey rn) = true
    · rw [if_pos hi]
      exact hr
    · rw [if_neg hi]
      simp only []
      cases hc : lookup id h.clients with
      | none =>
        simp only
        by_cases hid : inheritedKey id = true
        · rw [if_pos hid]
          exact isSome_lookup_assign _ _ _ _ hr
        · rw [if_neg hid]
          exact isSome_lookup_assign _ _ _ _ hr
      | some client => exact isSome_lookup_assign _ _ _ _ hr

theorem roomKept_removeFromRoom (rn id : String) (h : Hub) (r : String)
    (hr : (lookup r h.rooms).isSome = true) :
    (lookup r (removeFromRoom rn id h).hub.rooms).isSome = true := by
  obtain ⟨rooms1, clients1, subs1, hhub, hrooms, _⟩ := removeFromRoom_shape rn id h
  rw [hhub]
  rcases hrooms with hsame | ⟨room, _, hassign⟩
  · rw [hsame]
    exact hr
  · rw [hassign]
    exact isSome_lookup_assign _ _ _ _ hr

theorem roomKept_connectionDisconnected (id : String) (h : Hub) (r : String)
    (hr : (lookup r h.rooms).isSome = true) :
    (lookup r (connectionDisconnected id h).hub.rooms).isSome = true := by
  unfold connectionDisconnected
  cases hc : lookup id h.clients with
  | none => exact hr
  | some client =>
    simp only
    cases hroom : client.room with
    | none => exact hr
    | some room =>
      simp only
      by_cases ht : (!truthy room) = true
      · rw [if_pos ht]
        exact hr
      · rw [if_neg ht]
        cases hraised : (removeFromRoom room id h).raised with
        | some e => exact roomKept_removeFromRoom room id h r hr
        | none => exact roomKept_removeFromRoom room id h r hr

theorem roomKept_initializeBroadcaster (id : String) (h : Hub) (r : String)
    (hr : (lookup r h.rooms).isSome = true) :
    (lookup r (initializeBroadcaster id h).hub.rooms).isSome = true := by
  rcases initializeBroadcaster_shape id h with hsame | ⟨rn, room, _, hhub⟩
  · rw [hsame]
    exact hr
  · rw [hhub]
    exact isSome_lookup_assign _ _ _ _ hr

theorem roomKept_dispatch (ev : Event) (h : Hub) (r : String)
    (hr : (lookup r h.rooms).isSome = true) :
    (lookup r (dispatch ev h).hub.rooms).isSome = true := by
  cases ev with
  | connection id =>
    rw [dispatch, rooms_initializeConnect]
    exact hr
  | disconnect id =>
    simp only [dispatch]
    by_cases hreg : h.listening id = true
    · rw [if_pos hreg]
      exact roomKept_connectionDisconnected id (sioClose id h) r hr
    · rw [if_neg hreg]
      exact hr
  | joinRoom id room name =>
    simp only [dispatch]
    by_cases hreg : h.listening id = true
    · rw [if_pos hreg]
      exact roomKept_addToRoom room id name h r hr
    · rw [if_neg hreg]
      exact hr
  | leaveRoom id room =>
    simp only [dispatch]
    by_cases hreg : h.listening id = true
    · rw [if_pos hreg]
      exact roomKept_removeFromRoom room id h r hr
    · rw [if_neg hreg]
      exact hr
  | message id data now =>
    simp only [dispatch]
    by_cases hreg : h.listening id = true
    · rw [if_pos hreg, hub_transportMessage]
      exact hr
    · rw [if_neg hreg]
      exact hr
  | webrtc_message id m =>
    simp only [dispatch]
    by_cases hreg : h.listening id = true
    · rw [if_pos hreg, hub_webRTCMessage]
      exact hr
    · rw [if_neg hreg]
      exact hr
  | claimBroadcaster id =>
    simp only [dispatch]
    by_cases hreg : h.listening id = true
    · rw [if_pos hreg]
      exact roomKept_initializeBroadcaster id h r hr
    · rw [if_neg hreg]
      exact hr

theorem roomKept_run (evs : List Event) (h : Hub) (r : String)
    (hr : (lookup r h.rooms).isSome = true) :
    (lookup r (run evs h).hub.rooms).isSome = true := by
  induction evs generalizing h with
  | nil => simpa [run] using hr
  | cons ev rest ih =>
    unfold run
    simp only
    cases hraised : (dispatch ev h).raised with
    | some e => exact roomKept_dispatch ev h r hr
    | none => exact ih _ (roomKept_dispatch ev h r hr)

theorem removeFromRoom_raised (rn id : String) (h : Hub) :
    (removeFromRoom rn id h).raised ≠ some (JsError.referenceError "rooms")
      ∧ ((lookup id h.clients).isSome = true → inheritedKey rn = false →
          (removeFromRoom rn id h).raised = none) := by
  unfold removeFromRoom
  cases hroom : lookup rn h.rooms with
  | none =>
    simp only
    by_cases hi : inheritedKey rn = true
    · rw [if_pos hi]
      simp [hi]
    · rw [if_neg hi]
      simp
  | some room =>
    simp only
    cases hfind : room.members.find? (fun m => decide (m.connection = id)) with
    | none => simp
    | some member =>
      simp only
      have hlen : ¬ room.members.length = 0 := by
        intro h0
        rw [List.length_eq_zero] at h0
        rw [h0] at hfind
        simp at hfind
      rw [if_neg hlen]
      cases hc : lookup id h.clients with
      | none =>
        simp only
        by_cases hid : inheritedKey id = true
        · rw [if_pos hid]
          simp
        · rw [if_neg hid]
          simp
      | some client => simp

/-! ## Claim about the room-deletion statement -/

/-- C17, counterexample: in the hub reached by the connection of `c1`,
`removeFromRoom("toString", c1)` raises a `TypeError`: the guard reads the
inherited `toString` and `.members.find` is called on it. -/
theorem removeFromRoom_inherited_room_name_counterexample :
    (run [Event.connection "c1"] Hub.empty).raised = none
      ∧ removeFromRoom "toString" "c1" (reach [Event.connection "c1"]) =
        ⟨reach [Event.connection "c1"], [], some JsError.typeError⟩ := by
  decide

/-- C17, amended: in every hub state reached from the start, `removeFromRoom(r,
c)` never gets to the room-deletion statement: it never raises the
`ReferenceError` for `rooms`, because a found member makes the member list
non-empty at the test; for a room name `r` that is no property name the registry
inherits and a registered connection `c` (the listeners exist on registered
connections only) it raises nothing at all.  A room that is in the registry is
still in it after `removeFromRoom` and after any further events. -/
theorem removeFromRoom_never_deletes (evs : List Event) (r c : String) :
    (removeFromRoom r c (reach evs)).raised ≠ some (JsError.referenceError "rooms")
      ∧ ((lookup c (reach evs).clients).isSome = true → inheritedKey r = false →
          (removeFromRoom r c (reach evs)).raised = none)
      ∧ (∀ r2, (lookup r2 (reach evs).rooms).isSome = true →
          (lookup r2 (removeFromRoom r c (reach evs)).hub.rooms).isSome = true)
      ∧ ∀ more r2, (lookup r2 (reach evs).rooms).isSome = true →
          (lookup r2 (run more (reach evs)).hub.rooms).isSome = true :=
  ⟨(removeFromRoom_raised r c (reach evs)).1, (removeFromRoom_raised r c (reach evs)).2,
    fun r2 hr => roomKept_removeFromRoom r c (reach evs) r2 hr,
    fun more r2 hr => roomKept_run more (reach evs) r2 hr⟩

/-- Witness for C17, amended: the only member of room `r1` leaves it and the
room stays. -/
theorem removeFromRoom_never_deletes_witness :
    (removeFromRoom "r1" "c1"
        (reach [Event.connection "c1", Event.joinRoom "c1" "r1" "alice"])).raised = none
      ∧ (lookup "r1" (removeFromRoom "r1" "c1"
        (reach [Event.connection "c1", Event.joinRoom "c1" "r1" "alice"])).hub.rooms).isSome
        = true :=
  ⟨(removeFromRoom_never_deletes [Event.connection "c1", Event.joinRoom "c1" "r1" "alice"]
      "r1" "c1").2.1 (by decide) (by decide),
   (removeFromRoom_never_deletes [Event.connection "c1", Event.joinRoom "c1" "r1" "alice"]
      "r1" "c1").2.2.1 "r1" (by decide)⟩

/-! ## Claims about `WebRTCViewer` -/

/-- C11: for every viewer and every broadcaster id `X` (a non-empty string),
the second of two consecutive `watch(X)` calls throws, emits nothing and leaves
the viewer as the first call left it; when the viewer was not watching before,
the first call succeeds with one `sendRequest` for `X` and the recorded watch
target is `X` after both calls. -/
theorem watch_twice_rejected (v : Viewer) (X : String) (hX : X ≠ "") :
    Viewer.watch X (Viewer.watch X v).viewer =
        ⟨(Viewer.watch X v).viewer, [],
          some (JsError.error "You must first leave the current room.")⟩
      ∧ (truthyOpt v.watching = false →
          (Viewer.watch X v).raised = none
          ∧ (Viewer.watch X v).out = [ViewerNotice.sendRequest ⟨some X, some v.id, none, none⟩]
          ∧ (Viewer.watch X v).viewer.watching = some X
          ∧ (Viewer.watch X (Viewer.watch X v).viewer).viewer.watching = some X) := by
  have hXt : truthy X = true := (truthy_iff X).2 hX
  by_cases hw : truthyOpt v.watching = true
  · simp [Viewer.watch, hw]
  · have hw2 : truthyOpt v.watching = false := by simpa using hw
    have h1 : Viewer.watch X v =
        ⟨{ v with watching := some X },
          [ViewerNotice.sendRequest ⟨some X, some v.id, none, none⟩], none⟩ := by
      simp [Viewer.watch, hw2]
    rw [h1]
    simp [Viewer.watch, truthyOpt, hXt]

/-- Witness for C11: a new viewer `v1` watches `b1` twice. -/
theorem watch_twice_rejected_witness :
    Viewer.watch "b1" (Viewer.watch "b1" (Viewer.new "v1")).viewer =
      ⟨(Viewer.watch "b1" (Viewer.new "v1")).viewer, [],
        some (JsError.error "You must first leave the current room.")⟩ :=
  (watch_twice_rejected (Viewer.new "v1") "b1" (by decide)).1

/-- C12, counterexample: viewer `v1` watches `b1`; the `disconnected` callback
emits the `disconnected` notification, the watch target is still `b1`, and a
subsequent `watch("b2")` throws and emits nothing. -/
theorem disconnected_keeps_watching_counterexample :
    (Viewer.iceconnectionstatechange "disconnected"
        (Viewer.watch "b1" (Viewer.new "v1")).viewer).out = [ViewerNotice.disconnected]
      ∧ (Viewer.iceconnectionstatechange "disconnected"
          (Viewer.watch "b1" (Viewer.new "v1")).viewer).viewer.watching = some "b1"
      ∧ Viewer.watch "b2" (Viewer.iceconnectionstatechange "disconnected"
          (Viewer.watch "b1" (Viewer.new "v1")).viewer).viewer =
        ⟨(Viewer.watch "b1" (Viewer.new "v1")).viewer, [],
          some (JsError.error "You must first leave the current room.")⟩ := by
  decide

/-- C12, amended: for every viewer that is watching a broadcaster, the
`disconnected` callback emits the `disconnected` notification and nothing else
and leaves the viewer, its watch target included, unchanged; a subsequent
`watch(Y)` throws and emits no `sendRequest`. -/
theorem disconnected_keeps_viewer (v : Viewer) (Y : String)
    (hw : truthyOpt v.watching = true) :
    Viewer.iceconnectionstatechange "disconnected" v = ⟨v, [ViewerNotice.disconnected], none⟩
      ∧ Viewer.watch Y (Viewer.iceconnectionstatechange "disconnected" v).viewer =
        ⟨v, [], some (JsError.error "You must first leave the current room.")⟩ := by
  have hcb : Viewer.iceconnectionstatechange "disconnected" v
      = ⟨v, [ViewerNotice.disconnected], none⟩ := by
    simp [Viewer.iceconnectionstatechange]
  refine ⟨hcb, ?_⟩
  rw [hcb]
  simp [Viewer.watch, hw]

/-- Witness for C12, amended: viewer `v1` watching `b1`. -/
theorem disconnected_keeps_viewer_witness :
    Viewer.iceconnectionstatechange "disconnected" ⟨"v1", some "b1", none, none⟩ =
      ⟨⟨"v1", some "b1", none, none⟩, [ViewerNotice.disconnected], none⟩ :=
  (disconnected_keeps_viewer ⟨"v1", some "b1", none, none⟩ "b2" (by decide)).1

/-! ## Claims about `WebRTCBroadcaster` -/

/-- C13: `start(s)` on a broadcaster that is broadcasting changes nothing and
emits nothing, whatever `s` is.  On a broadcaster that is not broadcasting it
throws exactly when `s` is absent or its constructor is not `MediaStream`, and
then the broadcaster is unchanged (broadcasting still false, the stored source
as it was, so unset when it was unset) and nothing is emitted; otherwise it
stores `s`, sets broadcasting and emits `broadcasting` once. -/
theorem start_cases (b : Broadcaster) (s : Option MediaSource) :
    (b.broadcasting = true → Broadcaster.start s b = ⟨b, [], none⟩)
      ∧ (b.broadcasting = false →
          ((Broadcaster.start s b).raised ≠ none ↔
            (s = none ∨ ∃ m, s = some m ∧ m.constructorName ≠ "MediaStream")))
      ∧ (b.broadcasting = false → (Broadcaster.start s b).raised ≠ none →
          (Broadcaster.start s b).broadcaster = b ∧ (Broadcaster.start s b).out = []
          ∧ (Broadcaster.start s b).broadcaster.broadcasting = false
          ∧ (b.mediaStream = none → (Broadcaster.start s b).broadcaster.mediaStream = none))
      ∧ (b.broadcasting = false → ∀ m, s = some m → m.constructorName = "MediaStream" →
          Broadcaster.start s b =
            ⟨{ b with broadcasting := true, mediaStream := some m },
              [BroadcasterNotice.broadcasting], none⟩) := by
  refine ⟨?_, ?_, ?_, ?_⟩
  · intro hb
    simp [Broadcaster.start, hb]
  · intro hb
    cases s with
    | none => simp [Broadcaster.start, hb]
    | some m =>
      by_cases hm : m.constructorName = "MediaStream" <;> simp [Broadcaster.start, hb, hm]
  · intro hb hraised
    cases s with
    | none => simp [Broadcaster.start, hb]
    | some m =>
      by_cases hm : m.constructorName = "MediaStream"
      · simp [Broadcaster.start, hb, hm] at hraised
      · simp [Broadcaster.start, hb, hm]
  · intro hb m hs hm
    subst hs
    simp [Broadcaster.start, hb, hm]

/-- Witness for C13: a new broadcaster started with a `MediaStream`. -/
theorem start_cases_witness :
    Broadcaster.start (some ⟨"MediaStream", ["video"]⟩) (Broadcaster.new "b1") =
      ⟨⟨"b1", true, some ⟨"MediaStream", ["video"]⟩, JsArray.empty⟩,
        [BroadcasterNotice.broadcasting], none⟩ :=
  (start_cases (Broadcaster.new "b1") (some ⟨"MediaStream", ["video"]⟩)).2.2.2
    rfl ⟨"MediaStream", ["video"]⟩ rfl rfl

/-- C15: a broadcaster that was never started, and one that was started and
stopped, both handle `viewerRequest({ name: "v1", target: "b1" })` by storing a
peer connection under `viewers["v1"]` and then raising a `TypeError` at
`this[mediaStream].getTracks()`; no offer is emitted. -/
theorem viewerRequest_while_halted :
    Broadcaster.viewerRequest ⟨some "b1", some "v1", none, none⟩ 0 (Broadcaster.new "b1") =
        ⟨⟨"b1", false, none, ⟨0, [("v1", ⟨0, ⟨some "b1", some "v1", none, none⟩, []⟩)]⟩⟩,
          [], some JsError.typeError⟩
      ∧ (Broadcaster.stop (Broadcaster.start (some ⟨"MediaStream", ["video"]⟩)
          (Broadcaster.new "b1")).broadcaster).out = [BroadcasterNotice.halted]
      ∧ Broadcaster.viewerRequest ⟨some "b1", some "v1", none, none⟩ 0
          (Broadcaster.stop (Broadcaster.start (some ⟨"MediaStream", ["video"]⟩)
            (Broadcaster.new "b1")).broadcaster).broadcaster =
        ⟨⟨"b1", false, none, ⟨0, [("v1", ⟨0, ⟨some "b1", some "v1", none, none⟩, []⟩)]⟩⟩,
          [], some JsError.typeError⟩ := by
  decide

/-- C16: a started broadcaster accepts `viewerRequest({ name: "v1", target:
"b1" })` and holds one sub-session, for `v1`, while `viewers.length` is `0`:
the peer connection is stored under the string key `"v1"` of the array. -/
theorem viewers_length_not_count :
    (Broadcaster.viewerRequest ⟨some "b1", some "v1", none, none⟩ 0
        (Broadcaster.start (some ⟨"MediaStream", ["video"]⟩)
          (Broadcaster.new "b1")).broadcaster).raised = none
      ∧ (Broadcaster.viewerRequest ⟨some "b1", some "v1", none, none⟩ 0
          (Broadcaster.start (some ⟨"MediaStream", ["video"]⟩)
            (Broadcaster.new "b1")).broadcaster).broadcaster.subSessions =
        [("v1", ⟨0, ⟨some "b1", some "v1", none, none⟩, ["video"]⟩)]
      ∧ (Broadcaster.viewerRequest ⟨some "b1", some "v1", none, none⟩ 0
          (Broadcaster.start (some ⟨"MediaStream", ["video"]⟩)
            (Broadcaster.new "b1")).broadcaster).broadcaster.viewers.length = 0 := by
  decide

/-! ## Claim about the addressing of replies -/

theorem read_set {α : Type} (arr : JsArray α) (k : String) (v : α)
    (hlen : k ≠ "length") (hproto : k ≠ "__proto__") :
    ∃ arr2, arr.set k v = some arr2 ∧ arr2.read k = Found.own v := by
  unfold JsArray.set
  rw [if_neg hlen, if_neg hproto]
  cases arrayIndex k with
  | none => exact ⟨_, rfl, by simp [JsArray.read, lookup_assign_same]⟩
  | some i => exact ⟨_, rfl, by simp [JsArray.read, lookup_assign_same]⟩

/-- C14: a reply goes back to the sender of the message that triggered it.
Broadcaster: whatever `negotiationneeded` emits for a request `r` is a
`sendOffer` with `target = r.name` and `name` the broadcaster's id; and for a
request whose name is stored as a property of `viewers` (non-empty, neither
`length` nor `__proto__`), `viewerRequest` stores a sub-session for the new peer
connection that captured `r`, for which a completed negotiation emits exactly
that `sendOffer`.  Viewer: whatever `receiveOffer`
emits for an offer `o` is a `sendAccept` with `target = o.name` and `name` the
viewer's id; for an offer whose target is the viewer's id a completed answer
emits exactly that `sendAccept`; an offer with another target leaves the viewer
unchanged (no sub-session) and emits nothing. -/
theorem replies_addressed_to_sender :
    (∀ (b : Broadcaster) (r : Signal) (t : OfferTransport) (e : BroadcasterNotice),
        e ∈ (Broadcaster.negotiationneeded r t b).out →
        ∃ d, t.localDescription = some d
          ∧ e = BroadcasterNotice.sendOffer ⟨r.name, some b.id, some d, none⟩)
      ∧ (∀ (b : Broadcaster) (r : Signal) (name : String) (peer : Nat)
          (t : OfferTransport) (offer d : String),
        r.name = some name → name ≠ "" → name ≠ "length" → name ≠ "__proto__" →
        t.offer = some offer → t.stable = true → t.localDescription = some d →
        (∃ p, (Broadcaster.viewerRequest r peer b).broadcaster.viewers.read name = Found.own p
            ∧ p.handle = peer ∧ p.origin = r)
          ∧ Broadcaster.negotiationneeded r t (Broadcaster.viewerRequest r peer b).broadcaster =
            ⟨(Broadcaster.viewerRequest r peer b).broadcaster,
              [BroadcasterNotice.sendOffer ⟨some name, some b.id, some d, none⟩], none⟩)
      ∧ (∀ (v : Viewer) (o : Signal) (peer : Nat) (t : AnswerTransport) (e : ViewerNotice),
        e ∈ (Viewer.receiveOffer o peer t v).out →
        ∃ a, t.answer = some a ∧ e = ViewerNotice.sendAccept ⟨o.name, some v.id, some a, none⟩)
      ∧ (∀ (v : Viewer) (o : Signal) (peer : Nat) (t : AnswerTransport) (a : String),
        o.target = some v.id → t.described = true → t.remoteApplied = true →
        t.answer = some a →
        Viewer.receiveOffer o peer t v =
          ⟨{ v with broadcaster := some ⟨peer, o, []⟩ },
            [ViewerNotice.sendAccept ⟨o.name, some v.id, some a, none⟩], none⟩)
      ∧ (∀ (v : Viewer) (o : Signal) (peer : Nat) (t : AnswerTransport),
        o.target ≠ some v.id → Viewer.receiveOffer o peer t v = ⟨v, [], none⟩) := by
  refine ⟨?_, ?_, ?_, ?_, ?_⟩
  · intro b r t e he
    unfold Broadcaster.negotiationneeded at he
    cases hv : b.viewers.read (jsKey r.name) with
    | other truthy =>
      cases truthy <;> simp [hv] at he
    | own p =>
      cases ho : t.offer with
      | none => simp [hv, ho] at he
      | some offer =>
        cases hs : t.stable with
        | false => simp [hv, ho, hs] at he
        | true =>
          cases hd : t.localDescription with
          | none => simp [hv, ho, hs, hd] at he
          | some d =>
            simp [hv, ho, hs, hd] at he
            exact ⟨d, rfl, he⟩
  · intro b r name peer t offer d hname hne hlen hproto hoffer hstable hdesc
    have hnt : truthy name = true := (truthy_iff name).2 hne
    have key : ∀ tracks : List String, ∀ raised : Option JsError, ∀ viewers1,
        b.viewers.set name (⟨peer, r, tracks⟩ : PeerConnection) = some viewers1 →
        viewers1.read name = Found.own ⟨peer, r, tracks⟩ →
        (∃ p, (⟨{ b with viewers := viewers1 }, [], raised⟩ : BroadcasterOutcome).broadcaster.viewers.read
              name = Found.own p ∧ p.handle = peer ∧ p.origin = r)
          ∧ Broadcaster.negotiationneeded r t
              (⟨{ b with viewers := viewers1 }, [], raised⟩ : BroadcasterOutcome).broadcaster =
            ⟨(⟨{ b with viewers := viewers1 }, [], raised⟩ : BroadcasterOutcome).broadcaster,
              [BroadcasterNotice.sendOffer ⟨some name, some b.id, some d, none⟩], none⟩ := by
      intro tracks raised viewers1 _ hread
      refine ⟨⟨_, hread, rfl, rfl⟩, ?_⟩
      simp [Broadcaster.negotiationneeded, hname, jsKey, hread, hoffer, hstable, hdesc]
    cases hsrc : b.mediaStream with
    | none =>
      obtain ⟨viewers1, hset, hread⟩ :=
        read_set b.viewers name (⟨peer, r, []⟩ : PeerConnection) hlen hproto
      have hreq : Broadcaster.viewerRequest r peer b =
          ⟨{ b with viewers := viewers1 }, [], some JsError.typeError⟩ := by
        simp [Broadcaster.viewerRequest, hname, truthyOpt, hnt, hsrc, jsKey, hset]
      rw [hreq]
      exact key _ _ _ hset hread
    | some src =>
      obtain ⟨viewers1, hset, hread⟩ :=
        read_set b.viewers name (⟨peer, r, src.tracks⟩ : PeerConnection) hlen hproto
      have hreq : Broadcaster.viewerRequest r peer b =
          ⟨{ b with viewers := viewers1 }, [], none⟩ := by
        simp [Broadcaster.viewerRequest, hname, truthyOpt, hnt, hsrc, jsKey, hset]
      rw [hreq]
      exact key _ _ _ hset hread
  · intro v o peer t e he
    unfold Viewer.receiveOffer at he
    by_cases htar : o.target ≠ some v.id
    · rw [if_pos htar] at he
      simp at he
    · rw [if_neg htar] at he
      cases hds : t.described with
      | false => simp [hds] at he
      | true =>
        cases hr : t.remoteApplied with
        | false => simp [hds, hr] at he
        | true =>
          cases ha : t.answer with
          | none => simp [hds, hr, ha] at he
          | some a =>
            simp [hds, hr, ha] at he
            exact ⟨a, rfl, he⟩
  · intro v o peer t a htar hds hr ha
    simp [Viewer.receiveOffer, htar, hds, hr, ha]
  · intro v o peer t htar
    simp [Viewer.receiveOffer, htar]

/-- Witness for C14: viewer `v1` requests broadcaster `b1`, whose negotiation
completes with description `S1`; `v1` answers the offer of `b1` with `S2`; an
offer for `v2` is ignored by `v1`. -/
theorem replies_addressed_to_sender_witness :
    Broadcaster.negotiationneeded ⟨some "b1", some "v1", none, none⟩ ⟨some "S1", true, some "S1"⟩
        (Broadcaster.viewerRequest ⟨some "b1", some "v1", none, none⟩ 0
          ⟨"b1", true, some ⟨"MediaStream", ["video"]⟩, JsArray.empty⟩).broadcaster =
      ⟨(Broadcaster.viewerRequest ⟨some "b1", some "v1", none, none⟩ 0
          ⟨"b1", true, some ⟨"MediaStream", ["video"]⟩, JsArray.empty⟩).broadcaster,
        [BroadcasterNotice.sendOffer ⟨some "v1", some "b1", some "S1", none⟩], none⟩
      ∧ Viewer.receiveOffer ⟨some "v1", some "b1", some "S1", none⟩ 0 ⟨true, true, some "S2"⟩
          ⟨"v1", some "b1", none, none⟩ =
        ⟨⟨"v1", some "b1", some ⟨0, ⟨some "v1", some "b1", some "S1", none⟩, []⟩, none⟩,
          [ViewerNotice.sendAccept ⟨some "b1", some "v1", some "S2", none⟩], none⟩
      ∧ Viewer.receiveOffer ⟨some "v2", some "b1", some "S1", none⟩ 0 ⟨true, true, some "S2"⟩
          ⟨"v1", some "b1", none, none⟩ = ⟨⟨"v1", some "b1", none, none⟩, [], none⟩ :=
  ⟨(replies_addressed_to_sender.2.1 ⟨"b1", true, some ⟨"MediaStream", ["video"]⟩, JsArray.empty⟩
      ⟨some "b1", some "v1", none, none⟩ "v1" 0
      ⟨some "S1", true, some "S1"⟩ "S1" "S1" rfl (by decide) (by decide) (by decide)
      rfl rfl rfl).2,
    replies_addressed_to_sender.2.2.2.1 ⟨"v1", some "b1", none, none⟩
      ⟨some "v1", some "b1", some "S1", none⟩ 0 ⟨true, true, some "S2"⟩ "S2" rfl rfl rfl rfl,
    replies_addressed_to_sender.2.2.2.2 ⟨"v1", some "b1", none, none⟩
      ⟨some "v2", some "b1", some "S1", none⟩ 0 ⟨true, true, some "S2"⟩ (by decide)⟩

end WebRTCDemo
